import Mathlib

/-!
Verification development for the kuha OAI-PMH repository core.

The protocol request handlers (`kuha/oai/views.py`) and the exception
taxonomy (`kuha/exception.py`) are embedded shallowly below.  The storage
layer (`kuha.models`) is an external collaborator and is represented by a
`Store` record of abstract query functions.  Helpers from `kuha/util.py`
and the harvest engine `kuha/importer/harvest.py` are not part of the
sources at hand; they are modelled from the specification text, and each
such definition carries a doc comment saying so.
-/

/-- Character constants used throughout (kept out of string literals). -/
def qmarkC : Char := Char.ofNat 34

def bslashC : Char := Char.ofNat 92

def lbraceC : Char := Char.ofNat 123

def rbraceC : Char := Char.ofNat 125

/-- Decimal digit test for a character, `'0'` through `'9'`. -/
def isDig (c : Char) : Bool := 48 ≤ c.toNat && c.toNat ≤ 57

/-- Numeric value of a decimal digit character. -/
def digVal (c : Char) : Nat := c.toNat - 48

/-- Modelled from the spec: `kuha.util.contains_illegal_chars` (not in the
sources at hand).  A value is illegal when it contains a control character
other than tab, line feed or carriage return. -/
def contains_illegal_chars (s : String) : Bool :=
  s.data.any (fun c => c.toNat < 32 && c.toNat ≠ 9 && c.toNat ≠ 10 && c.toNat ≠ 13)

/-- Modelled from the spec: `kuha.util.filter_illegal_chars` (not in the
sources at hand).  Drops the illegal control characters from a string. -/
def filter_illegal_chars (s : String) : String :=
  String.mk (s.data.filter
    (fun c => !(c.toNat < 32 && c.toNat ≠ 9 && c.toNat ≠ 10 && c.toNat ≠ 13)))

/-- A Python `datetime.datetime` value, compared field-lexicographically. -/
structure PyDateTime where
  year : Nat
  month : Nat
  day : Nat
  hour : Nat
  minute : Nat
  second : Nat
deriving DecidableEq, Repr

/-- Python `datetime` order: `a <= b` field-lexicographically. -/
def PyDateTime.le (a b : PyDateTime) : Bool :=
  if a.year ≠ b.year then a.year < b.year
  else if a.month ≠ b.month then a.month < b.month
  else if a.day ≠ b.day then a.day < b.day
  else if a.hour ≠ b.hour then a.hour < b.hour
  else if a.minute ≠ b.minute then a.minute < b.minute
  else a.second ≤ b.second

/-- Precision of an OAI-PMH date string: day or second granularity. -/
inductive Granularity where
  | day
  | second
deriving DecidableEq, Repr

/-- Modelled from the spec: `kuha.util.parse_date` (not in the sources at
hand).  Parses a date string at day granularity (`YYYY-MM-DD`), filling the
time of day from the default `dh:dm:ds`, or at second granularity
(`YYYY-MM-DDThh:mm:ssZ`).  Unparseable strings are a `ValueError`,
modelled as `Except.error ()`. -/
def parse_date (s : String) (dh dm ds : Nat) :
    Except Unit (PyDateTime × Granularity) :=
  match s.data with
  | [y1, y2, y3, y4, c1, m1, m2, c2, d1, d2] =>
    if isDig y1 && isDig y2 && isDig y3 && isDig y4 &&
        (c1 == '-') && isDig m1 && isDig m2 && (c2 == '-') &&
        isDig d1 && isDig d2 then
      let y := digVal y1 * 1000 + digVal y2 * 100 + digVal y3 * 10 + digVal y4
      let mo := digVal m1 * 10 + digVal m2
      let da := digVal d1 * 10 + digVal d2
      if 1 ≤ mo && mo ≤ 12 && 1 ≤ da && da ≤ 31 then
        .ok (⟨y, mo, da, dh, dm, ds⟩, .day)
      else .error ()
    else .error ()
  | [y1, y2, y3, y4, c1, m1, m2, c2, d1, d2, ct, h1, h2, c3, i1, i2, c4, s1, s2, cz] =>
    if isDig y1 && isDig y2 && isDig y3 && isDig y4 &&
        (c1 == '-') && isDig m1 && isDig m2 && (c2 == '-') &&
        isDig d1 && isDig d2 && (ct == 'T') && isDig h1 && isDig h2 &&
        (c3 == ':') && isDig i1 && isDig i2 && (c4 == ':') &&
        isDig s1 && isDig s2 && (cz == 'Z') then
      let y := digVal y1 * 1000 + digVal y2 * 100 + digVal y3 * 10 + digVal y4
      let mo := digVal m1 * 10 + digVal m2
      let da := digVal d1 * 10 + digVal d2
      let h := digVal h1 * 10 + digVal h2
      let mi := digVal i1 * 10 + digVal i2
      let sec := digVal s1 * 10 + digVal s2
      if 1 ≤ mo && mo ≤ 12 && 1 ≤ da && da ≤ 31 &&
          h ≤ 23 && mi ≤ 59 && sec ≤ 59 then
        .ok (⟨y, mo, da, h, mi, sec⟩, .second)
      else .error ()
    else .error ()
  | _ => .error ()

/-- Two zero-padded decimal digits of `n` (for `n ≤ 99`). -/
def d2c (n : Nat) : List Char :=
  [Char.ofNat (48 + n / 10 % 10), Char.ofNat (48 + n % 10)]

/-- Four zero-padded decimal digits of `n` (for `n ≤ 9999`). -/
def d4c (n : Nat) : List Char :=
  [Char.ofNat (48 + n / 1000 % 10), Char.ofNat (48 + n / 100 % 10),
   Char.ofNat (48 + n / 10 % 10), Char.ofNat (48 + n % 10)]

/-- Modelled from the spec: `kuha.util.format_datestamp` (not in the
sources at hand).  Serializes a datetime at second granularity as
`YYYY-MM-DDThh:mm:ssZ`, the form the resumption-token `date` field uses. -/
def format_datestamp (t : PyDateTime) : String :=
  String.mk (d4c t.year ++ '-' :: d2c t.month ++ '-' :: d2c t.day ++
    'T' :: d2c t.hour ++ ':' :: d2c t.minute ++ ':' :: d2c t.second ++ ['Z'])

/-- Hex digit character (lowercase), as Python's `json` emits in `\uXXXX`. -/
def hexDigitC (n : Nat) : Char :=
  if n < 10 then Char.ofNat (48 + n) else Char.ofNat (87 + n)

/-- Numeric value of a hex digit character, if it is one. -/
def hexVal (c : Char) : Option Nat :=
  if 48 ≤ c.toNat && c.toNat ≤ 57 then some (c.toNat - 48)
  else if 97 ≤ c.toNat && c.toNat ≤ 102 then some (c.toNat - 87)
  else if 65 ≤ c.toNat && c.toNat ≤ 70 then some (c.toNat - 55)
  else none

/-- Models Python `json.dumps` escaping of one character inside a JSON
string: quote and backslash are backslash-escaped, the common control
characters use their short escapes, other control characters use
`\u00XX`.  (Unlike `json.dumps`'s default `ensure_ascii`, non-ASCII
characters are emitted directly; both forms decode identically.) -/
def jsonEscapeChar (c : Char) : List Char :=
  if c = qmarkC then [bslashC, qmarkC]
  else if c = bslashC then [bslashC, bslashC]
  else if c.toNat = 8 then [bslashC, 'b']
  else if c.toNat = 9 then [bslashC, 't']
  else if c.toNat = 10 then [bslashC, 'n']
  else if c.toNat = 12 then [bslashC, 'f']
  else if c.toNat = 13 then [bslashC, 'r']
  else if c.toNat < 32 then
    [bslashC, 'u', '0', '0', hexDigitC (c.toNat / 16), hexDigitC (c.toNat % 16)]
  else [c]

/-- JSON-escape a whole string (no surrounding quotes). -/
def jsonEscape (s : String) : List Char := s.data.flatMap jsonEscapeChar

/-- A JSON string literal with its quotes. -/
def jsonQuote (s : String) : List Char := qmarkC :: jsonEscape s ++ [qmarkC]

/-- A JSON value that is either a string or `null`. -/
def jsonValueStr : Option String → List Char
  | none => ['n', 'u', 'l', 'l']
  | some s => jsonQuote s

/-- The members of a flat JSON object, joined with `", "` and separated
from their keys by `": "`, exactly as `json.dumps` emits by default. -/
def membersChars : List (String × Option String) → List Char
  | [] => []
  | [(k, v)] => jsonQuote k ++ ':' :: ' ' :: jsonValueStr v
  | (k, v) :: rest =>
    jsonQuote k ++ ':' :: ' ' :: jsonValueStr v ++ ',' :: ' ' :: membersChars rest

/-- Models Python `json.dumps` on a flat object whose values are strings
or `None` (the only shape the resumption-token codec serializes). -/
def dumpsFlat (entries : List (String × Option String)) : String :=
  String.mk (lbraceC :: membersChars entries ++ [rbraceC])

/-- Simple JSON escape codes (everything except `\uXXXX`). -/
def unescape1 (c : Char) : Option Char :=
  if c = qmarkC then some qmarkC
  else if c = bslashC then some bslashC
  else if c = '/' then some '/'
  else if c = 'b' then some (Char.ofNat 8)
  else if c = 't' then some (Char.ofNat 9)
  else if c = 'n' then some (Char.ofNat 10)
  else if c = 'f' then some (Char.ofNat 12)
  else if c = 'r' then some (Char.ofNat 13)
  else none

/-- Parse the body of a JSON string after its opening quote, returning the
decoded characters and the input remaining after the closing quote. -/
def parseJStr : List Char → Option (List Char × List Char)
  | [] => none
  | c :: cs =>
    if c = qmarkC then some ([], cs)
    else if c = bslashC then
      match cs with
      | [] => none
      | e :: cs' =>
        if e = 'u' then
          match cs' with
          | h1 :: h2 :: h3 :: h4 :: cs2 =>
            match hexVal h1, hexVal h2, hexVal h3, hexVal h4, parseJStr cs2 with
            | some a, some b, some c2, some d, some (r, rest) =>
              some (Char.ofNat (((a * 16 + b) * 16 + c2) * 16 + d) :: r, rest)
            | _, _, _, _, _ => none
          | _ => none
        else
          match unescape1 e, parseJStr cs' with
          | some c', some (r, rest) => some (c' :: r, rest)
          | _, _ => none
    else if c.toNat < 32 then none
    else
      match parseJStr cs with
      | some (r, rest) => some (c :: r, rest)
      | none => none

/-- JSON whitespace. -/
def isJsonWs (c : Char) : Bool :=
  c.toNat = 32 || c.toNat = 9 || c.toNat = 10 || c.toNat = 13

/-- Drop leading JSON whitespace. -/
def skipWs : List Char → List Char
  | [] => []
  | c :: cs => if isJsonWs c then skipWs cs else c :: cs

/-- Parse a JSON value that is a string or `null`. -/
def parseJValue (l : List Char) : Option (Option String × List Char) :=
  match l with
  | [] => none
  | c :: cs =>
    if c = qmarkC then (parseJStr cs).map (fun p => (some (String.mk p.1), p.2))
    else
      match c, cs with
      | 'n', 'u' :: 'l' :: 'l' :: rest => some (none, rest)
      | _, _ => none

/-- Parse one `"key": value` member of a flat JSON object. -/
def parseJMember (l : List Char) : Option ((String × Option String) × List Char) :=
  match skipWs l with
  | [] => none
  | c :: cs =>
    if c = qmarkC then
      match parseJStr cs with
      | some (k, rest) =>
        match skipWs rest with
        | c2 :: cs2 =>
          if c2 = ':' then
            match parseJValue (skipWs cs2) with
            | some (v, rest2) => some ((String.mk k, v), rest2)
            | none => none
          else none
        | [] => none
      | none => none
    else none

/-- Parse the members of a flat JSON object up to and including the
closing brace; `fuel` bounds the number of members. -/
def parseJMembers : Nat → List Char → Option (List (String × Option String) × List Char)
  | 0, _ => none
  | fuel + 1, l =>
    match parseJMember l with
    | none => none
    | some (kv, rest) =>
      match skipWs rest with
      | c :: cs =>
        if c = ',' then
          match parseJMembers fuel cs with
          | some (kvs, rest2) => some (kv :: kvs, rest2)
          | none => none
        else if c = rbraceC then some ([kv], cs)
        else none
      | [] => none

/-- Python `dict` update: replace the value at an existing key in place,
or append a new binding. -/
def pyUpsert (l : List (String × Option String)) (k : String) (v : Option String) :
    List (String × Option String) :=
  if l.any (fun p => p.1 == k) then
    l.map (fun p => if p.1 == k then (p.1, v) else p)
  else l ++ [(k, v)]

/-- Build a Python dict from parsed members (duplicate keys: last wins). -/
def toPyDict (l : List (String × Option String)) : List (String × Option String) :=
  l.foldl (fun acc kv => pyUpsert acc kv.1 kv.2) []

/-- Models Python `json.loads` restricted to flat objects whose values
are strings or `null`, combined with the type checks the token decoder
performs afterwards: any other JSON document fails here, exactly as it
would fail the decoder's `type(parsed) is dict` / value-type checks. -/
def loadsFlat (s : String) : Option (List (String × Option String)) :=
  match skipWs s.data with
  | [] => none
  | c :: cs =>
    if c = lbraceC then
      match skipWs cs with
      | [] => none
      | c2 :: cs2 =>
        if c2 = rbraceC then
          if (skipWs cs2).isEmpty then some (toPyDict []) else none
        else
          match parseJMembers cs.length (c2 :: cs2) with
          | some (kvs, rest) =>
            if (skipWs rest).isEmpty then some (toPyDict kvs) else none
          | none => none
    else none

/-- Python `dict.get(k, None)` on a parsed token: `none` both for a
missing key and for a `null` value, like the decoder's uses of `.get`. -/
def dictGet (l : List (String × Option String)) (k : String) : Option String :=
  ((l.find? (fun p => p.1 == k)).map (fun p => p.2)).bind id

/-- Models Python `str.format` restricted to single-digit positional
indices (`\x7b0\x7d`, `\x7b1\x7d`), automatic fields (`\x7b\x7d`) and the
doubled-brace escapes — the only forms the exception messages use.
Malformed templates or out-of-range indices (Python `ValueError` /
`IndexError`) yield `none`. -/
def pyFormatAux (args : List String) : List Char → Nat → Option (List Char)
  | [], _ => some []
  | c :: cs, auto =>
    if c = lbraceC then
      match cs with
      | [] => none
      | c2 :: cs2 =>
        if c2 = lbraceC then (pyFormatAux args cs2 auto).map (fun r => lbraceC :: r)
        else if c2 = rbraceC then
          match args.get? auto, pyFormatAux args cs2 (auto + 1) with
          | some a, some r => some (a.data ++ r)
          | _, _ => none
        else if isDig c2 then
          match cs2 with
          | c3 :: cs3 =>
            if c3 = rbraceC then
              match args.get? (digVal c2), pyFormatAux args cs3 auto with
              | some a, some r => some (a.data ++ r)
              | _, _ => none
            else none
          | [] => none
        else none
    else if c = rbraceC then
      match cs with
      | c2 :: cs2 =>
        if c2 = rbraceC then (pyFormatAux args cs2 auto).map (fun r => rbraceC :: r)
        else none
      | [] => none
    else (pyFormatAux args cs auto).map (fun r => c :: r)

/-- Python `template.format(*args)`, see `pyFormatAux`. -/
def pyFormat (template : String) (args : List String) : Option String :=
  (pyFormatAux args template.data 0).map String.mk

/-- The OAI-PMH protocol exception taxonomy of `kuha/exception.py`,
flattened to one constructor per concrete exception class. -/
inductive OaiError where
  | missingVerb
  | repeatedVerb
  | invalidVerb
  | badArgument (msg : String)
  | invalidResumptionToken
  | expiredResumptionToken
  | unsupportedMetadataFormat (pfx : Option String)
  | idDoesNotExist (identifier : String)
  | noRecordsMatch
  | noMetadataFormats (identifier : String)
  | noSetHierarchy
deriving DecidableEq, Repr

/-- The `message()` of `NoMetadataFormats(identifier)` as constructed in
`kuha/exception.py`: the template uses a printf-style `%s` placeholder
but is applied with `str.format`. -/
def NoMetadataFormats_message (identifier : String) : Option String :=
  (pyFormat ("No metadata formats available for item \x22%s\x22.") [identifier]).map
    filter_illegal_chars

/-- An uncaught Python exception that is not an `OaiException`
(e.g. `KeyError`), alongside the protocol errors. -/
inductive Failure where
  | oai (e : OaiError)
  | keyError
deriving DecidableEq, Repr

/-- Lift a protocol-error computation into the handler error type. -/
def liftOai {α : Type} : Except OaiError α → Except Failure α
  | .ok a => .ok a
  | .error e => .error (.oai e)

/-- Request parameters: an association list of names to values, in
order.  `isMulti` is `true` for a WebOb multidict (which answers
`hasattr(params, 'getall')` and may repeat names) and `false` for a plain
dict parsed from a resumption token (whose values may be `None`). -/
structure Params where
  entries : List (String × Option String)
  isMulti : Bool
deriving DecidableEq, Repr

/-- Python `name in params`. -/
def Params.hasName (p : Params) (n : String) : Bool :=
  p.entries.any (fun e => e.1 == n)

/-- The number of values `params.getall(name)` would return. -/
def Params.countName (p : Params) (n : String) : Nat :=
  (p.entries.filter (fun e => e.1 == n)).length

/-- Python `for name in params`. -/
def Params.keys (p : Params) : List String := p.entries.map (fun e => e.1)

/-- Python `params[name]`: `none` models a `KeyError`. -/
def Params.getItem (p : Params) (n : String) : Option (Option String) :=
  (p.entries.find? (fun e => e.1 == n)).map (fun e => e.2)

/-- Python `params.get(name)`: `none` for a missing name or a `None`
value. -/
def Params.get (p : Params) (n : String) : Option String :=
  (p.getItem n).bind id

def kVerb : String := "verb"

def kMdPfx : String := "metadataPrefix"

def kOffset : String := "offset"

def kDate : String := "date"

def kFrom : String := "from"

def kUntil : String := "until"

def kSet : String := "set"

def kResTok : String := "resumptionToken"

/-- A record as the handlers see it: only its identifier matters here. -/
structure OaiRecord where
  identifier : String
deriving DecidableEq, Repr

/-- The arguments `_get_records` passes to `Record.list`. -/
structure RecordQuery where
  mdPfx : Option String
  fromDate : Option PyDateTime
  untilDate : Option PyDateTime
  setSpec : Option String
  ignoreDeleted : Bool
  offset : Option String
  limit : Nat
deriving DecidableEq, Repr

/-- The storage collaborator surface the handlers consult
(`kuha.models`), abstracted as query functions. -/
structure Store where
  formatExists : Option String → Bool → Bool
  setList : List String
  recordList : RecordQuery → List OaiRecord
  datestamp : Option PyDateTime

/-- The parts of a pyramid request the handlers read. -/
structure Request where
  params : Params
  limit : Nat
  deletedRecords : String
  time : PyDateTime

/-- One step of `_check_params`'s per-name loop: unexpected name,
repeated name (multidicts only), then illegal characters in the value. -/
def checkName (p : Params) (required allowed : List String) (name : String) :
    Except OaiError Unit :=
  if !((name == kVerb) || allowed.contains name || required.contains name) then
    .error (.badArgument (filter_illegal_chars ("Illegal argument: \x22" ++ name ++ "\x22")))
  else if p.isMulti = true ∧ 1 < p.countName name then
    .error (.badArgument (filter_illegal_chars ("Repeated argument: \x22" ++ name ++ "\x22")))
  else
    match p.get name with
    | some v =>
      if contains_illegal_chars v then
        .error (.badArgument (filter_illegal_chars ("Invalid argument: \x22" ++ name ++ "\x22")))
      else .ok ()
    | none => .ok ()

/-- `_check_params`'s loop over the parameter names. -/
def checkNames (p : Params) (required allowed : List String) :
    List String → Except OaiError Unit
  | [] => .ok ()
  | n :: rest =>
    match checkName p required allowed n with
    | .ok _ => checkNames p required allowed rest
    | .error e => .error e

/-- `_check_params`'s final loop over the required names. -/
def checkRequired (p : Params) : List String → Except OaiError Unit
  | [] => .ok ()
  | r :: rest =>
    if !p.hasName r then
      .error (.badArgument (filter_illegal_chars ("Missing argument: \x22" ++ r ++ "\x22")))
    else checkRequired p rest

/-- `kuha.oai.views._check_params`: validate the request parameters
against the required and allowed names (the `verb` name is implied). -/
def check_params (p : Params) (required allowed : List String) :
    Except OaiError Unit :=
  if !p.hasName kVerb then .error .missingVerb
  else if p.isMulti = true ∧ 1 < p.countName kVerb then .error .repeatedVerb
  else
    match checkNames p required allowed p.keys with
    | .ok _ => checkRequired p required
    | .error e => .error e

/-- `kuha.oai.views._check_resumption_token_date`: the token's `date`
must parse (a missing or `null` date raises inside the `try` and becomes
invalid) and must be strictly later than the store's datestamp. -/
def check_resumption_token_date (token : List (String × Option String))
    (store : Store) : Except OaiError Unit :=
  match dictGet token kDate with
  | none => .error .invalidResumptionToken
  | some ds =>
    match parse_date ds 0 0 0 with
    | .error _ => .error .invalidResumptionToken
    | .ok (date, _) =>
      match store.datestamp with
      | none => .ok ()
      | some latest =>
        if PyDateTime.le date latest then .error .expiredResumptionToken
        else .ok ()

/-- `kuha.oai.views._get_resumption_token`: `none` when the request has
no `resumptionToken` parameter; otherwise no other parameter may
accompany it, the value must parse as a flat JSON object of string-or-null
fields whose `verb` matches the request's, and the embedded date must be
valid and unexpired. -/
def get_resumption_token (req : Request) (store : Store) :
    Except Failure (Option (List (String × Option String))) :=
  if !req.params.hasName kResTok then .ok none
  else
    match check_params req.params [kResTok] [] with
    | .error e => .error (.oai e)
    | .ok _ =>
      match req.params.getItem kResTok with
      | some (some ts) =>
        match loadsFlat ts with
        | none => .error (.oai .invalidResumptionToken)
        | some parsed =>
          match req.params.getItem kVerb with
          | none => .error .keyError
          | some vv =>
            if dictGet parsed kVerb ≠ vv then .error (.oai .invalidResumptionToken)
            else
              match check_resumption_token_date parsed store with
              | .error e => .error (.oai e)
              | .ok _ => .ok (some parsed)
      | _ => .error (.oai .invalidResumptionToken)

/-- `kuha.oai.views._create_resumption_token`: serialize the
continuation state as a JSON object (`none` models the impossible
`KeyError` on a validated parameter set). -/
def create_resumption_token (params : Params) (offset : String)
    (time : PyDateTime) : Option String :=
  match params.getItem kVerb, params.getItem kMdPfx with
  | some v, some mp =>
    some (dumpsFlat [(kVerb, v), (kMdPfx, mp), (kOffset, some offset),
      (kDate, some (format_datestamp time)), (kFrom, params.get kFrom),
      (kUntil, params.get kUntil), (kSet, params.get kSet)])
  | _, _ => none

/-- `kuha.oai.views._get_metadata_prefix` (renamed): the prefix must be
a supported format. -/
def get_metadata_pfx (params : Params) (ignore_deleted : Bool) (store : Store) :
    Except Failure (Option String) :=
  match params.getItem kMdPfx with
  | none => .error .keyError
  | some pfxv =>
    if store.formatExists pfxv ignore_deleted then .ok pfxv
    else .error (.oai (.unsupportedMetadataFormat pfxv))

/-- `kuha.oai.views._parse_from_and_until`: parse the optional `from`
and `until` parameters, defaulting `until`'s time of day to 23:59:59;
when both are present their granularities must match and `from` must not
exceed `until`. -/
def parse_from_and_until (fromStr untilStr : Option String) :
    Except OaiError (Option PyDateTime × Option PyDateTime) :=
  let fromRes : Except OaiError (Option PyDateTime × Option Granularity) :=
    match fromStr with
    | none => .ok (none, none)
    | some s =>
      match parse_date s 0 0 0 with
      | .ok (d, g) => .ok (some d, some g)
      | .error _ =>
        .error (.badArgument (filter_illegal_chars ("Illegal \x22from\x22 datestamp")))
  match fromRes with
  | .error e => .error e
  | .ok (fdO, fg) =>
    let untilRes : Except OaiError (Option PyDateTime × Option Granularity) :=
      match untilStr with
      | none => .ok (none, none)
      | some s =>
        match parse_date s 23 59 59 with
        | .ok (d, g) => .ok (some d, some g)
        | .error _ =>
          .error (.badArgument (filter_illegal_chars ("Illegal \x22until\x22 datestamp")))
    match untilRes with
    | .error e => .error e
    | .ok (udO, ug) =>
      match fdO, udO with
      | some fd, some ud =>
        if fg ≠ ug then
          .error (.badArgument (filter_illegal_chars
            ("Datestamps \x22from\x22 and \x22until\x22 have different granularity")))
        else if PyDateTime.le fd ud = false then
          .error (.badArgument (filter_illegal_chars
            ("Datestamp \x22from\x22 is greater than \x22until\x22")))
        else .ok (some fd, some ud)
      | _, _ => .ok (fdO, udO)

/-- `kuha.oai.views._get_records`: fetch one record beyond the page
limit; a full lookahead page yields the first `limit` records plus the
identifier of the extra record as the next offset. -/
def get_records (params : Params) (ignore_deleted : Bool) (limit : Nat)
    (store : Store) : Except Failure (List OaiRecord × Option String) :=
  match get_metadata_pfx params ignore_deleted store with
  | .error e => .error e
  | .ok pfxv =>
    match parse_from_and_until (params.get kFrom) (params.get kUntil) with
    | .error e => .error (.oai e)
    | .ok fu =>
      if (params.get kSet).isSome ∧ store.setList.length = 0 then
        .error (.oai .noSetHierarchy)
      else
        match (store.recordList ⟨pfxv, fu.1, fu.2, params.get kSet,
            ignore_deleted, params.get kOffset, limit + 1⟩).getLast? with
        | none => .error (.oai .noRecordsMatch)
        | some last =>
          if (store.recordList ⟨pfxv, fu.1, fu.2, params.get kSet,
              ignore_deleted, params.get kOffset, limit + 1⟩).length = limit + 1 then
            .ok ((store.recordList ⟨pfxv, fu.1, fu.2, params.get kSet,
              ignore_deleted, params.get kOffset, limit + 1⟩).dropLast, some last.identifier)
          else
            .ok ((store.recordList ⟨pfxv, fu.1, fu.2, params.get kSet,
              ignore_deleted, params.get kOffset, limit + 1⟩), none)

/-- The parameter set `handle_list_items` validates and queries with:
the token's fields when a token was supplied, the request's otherwise. -/
def effParams (req : Request)
    (tokenParams : Option (List (String × Option String))) : Params :=
  match tokenParams with
  | some tp => ⟨tp, false⟩
  | none => req.params

/-- The required names for ListIdentifiers/ListRecords. -/
def listItemsRequired (hasTok : Bool) : List String :=
  if hasTok then [kMdPfx, kOffset, kDate, kFrom, kUntil, kSet] else [kMdPfx]

/-- The allowed names for ListIdentifiers/ListRecords. -/
def listItemsAllowed (hasTok : Bool) : List String :=
  if hasTok then [] else [kFrom, kUntil, kSet]

/-- The `try` body of `handle_list_items`: validate the effective
parameters, then fetch the page. -/
def listItemsInner (params : Params) (hasTok : Bool) (ignore_deleted : Bool)
    (limit : Nat) (store : Store) :
    Except Failure (List OaiRecord × Option String) :=
  match check_params params (listItemsRequired hasTok) (listItemsAllowed hasTok) with
  | .error e => .error (.oai e)
  | .ok _ => get_records params ignore_deleted limit store

/-- `kuha.oai.views.handle_list_items` (ListIdentifiers and ListRecords
share it): resolve a resumption token, validate the effective
parameters, fetch a page, and emit the next resumption token — a fresh
one when more records remain, an empty terminal one when a token was
supplied and the list is exhausted, or none at all.  A protocol error
out of the `try` body is remapped to `InvalidResumptionToken` when the
parameters came from a token. -/
def handle_list_items (req : Request) (store : Store) :
    Except Failure (List OaiRecord × Option String) :=
  match get_resumption_token req store with
  | .error e => .error e
  | .ok tokenParams =>
    let hasTok := tokenParams.isSome
    let params := effParams req tokenParams
    match listItemsInner params hasTok (req.deletedRecords == "no") req.limit store with
    | .error (.oai e) =>
      if hasTok then .error (.oai .invalidResumptionToken) else .error (.oai e)
    | .error .keyError => .error .keyError
    | .ok (records, nextOff) =>
      match nextOff with
      | some off =>
        match create_resumption_token params off req.time with
        | some t => .ok (records, some t)
        | none => .error .keyError
      | none =>
        if hasTok then .ok (records, some (""))
        else .ok (records, none)

/-- `kuha.oai.views.handle_list_sets`: resumption tokens are not
supported — a supplied token fails as invalid, and an expired token is
re-raised as invalid; then the set hierarchy must be non-empty. -/
def handle_list_sets (req : Request) (store : Store) :
    Except Failure (List String) :=
  match get_resumption_token req store with
  | .ok (some _) => .error (.oai .invalidResumptionToken)
  | .error (.oai .expiredResumptionToken) => .error (.oai .invalidResumptionToken)
  | .error e => .error e
  | .ok none =>
    match check_params req.params [] [] with
    | .error e => .error (.oai e)
    | .ok _ =>
      if store.setList.length = 0 then .error (.oai .noSetHierarchy)
      else .ok store.setList

/-- One observable storage/provider effect of the harvest engine, used
to record the call sequence a harvest operation performs. -/
inductive HarvestOp where
  | itemGet (identifier : String)
  | clearSets
  | setCreateOrUpdate (spec nm : String)
  | addToSet (spec nm : String)
  | itemCreateOrUpdate (identifier : String)
  | itemMarkDeleted (identifier : String)
  | purgeDeleted
  | commitStore
deriving DecidableEq, Repr

/-- Lexicographic (dictionary) order on character lists, by code point —
the order Python string comparison uses. -/
def clLt : List Char → List Char → Bool
  | [], [] => false
  | [], _ :: _ => true
  | _ :: _, [] => false
  | a :: as, b :: bs =>
    if a.toNat < b.toNat then true
    else if b.toNat < a.toNat then false
    else clLt as bs

/-- Stable insertion of a (spec, name) pair by ascending spec string. -/
def insortPair (x : String × String) :
    List (String × String) → List (String × String)
  | [] => [x]
  | y :: ys => if clLt x.1.data y.1.data then x :: y :: ys else y :: insortPair x ys

/-- Stable sort of (spec, name) pairs by ascending spec string, as
Python's `sorted` orders them. -/
def sortPairs : List (String × String) → List (String × String)
  | [] => []
  | x :: xs => insortPair x (sortPairs xs)

/-- Modelled from the spec: `kuha.importer.harvest.update_sets` (not in
the sources at hand; pinned by `TestUpdateSets` in
`src/kuha/test/importer/test_harvest.py`).  Fetch the provider's
(spec, name) pairs — here the `pairs` argument — look the item up, clear
its set memberships, then upsert each set and add the item to it, sorted
by spec string ascending.  A dry run skips every mutating call. -/
def update_sets (pairs : List (String × String)) (identifier : String)
    (dryRun : Bool) : List HarvestOp :=
  if dryRun then [HarvestOp.itemGet identifier]
  else
    HarvestOp.itemGet identifier :: HarvestOp.clearSets ::
      (sortPairs pairs).flatMap
        (fun p => [HarvestOp.setCreateOrUpdate p.1 p.2, HarvestOp.addToSet p.1 p.2])

/-- Modelled from the spec: `kuha.importer.harvest.update_items` (not in
the sources at hand; pinned by `TestUpdateItems` in
`src/kuha/test/importer/test_harvest.py`).  Deduplicate the provider's
identifiers, mark store items absent from that set as deleted, upsert
every provider identifier once, purge when asked, commit, and return the
distinct identifiers.  A dry run skips every mutating call. -/
def update_items (providerIds storeIds : List String) (purge dryRun : Bool) :
    List HarvestOp × List String :=
  let distinct := providerIds.dedup
  let removedOps :=
    (storeIds.filter (fun i => !distinct.contains i)).map HarvestOp.itemMarkDeleted
  let createOps := distinct.map HarvestOp.itemCreateOrUpdate
  let tailOps := if purge then [HarvestOp.purgeDeleted] else []
  let ops := if dryRun then [] else removedOps ++ createOps ++ tailOps ++ [HarvestOp.commitStore]
  (ops, distinct)

/-- A proper prefix of a character list (a strict ancestor spec). -/
def ProperPfx (l1 l2 : List Char) : Prop := (∃ t, l1 ++ t = l2) ∧ l1 ≠ l2

/-- Store with format `oai_dc` and two records, for exercising the
lookahead page logic with `limit = 1`. -/
def storeTwoRecords : Store :=
  ⟨fun p _ => p == some ("oai_dc"), [], fun _ => [⟨"r1"⟩, ⟨"r2"⟩], none⟩

/-- A plain ListRecords request (no token) with `item_list_limit = 1`. -/
def reqPlainList : Request :=
  ⟨⟨[(kVerb, some ("ListRecords")), (kMdPfx, some ("oai_dc"))], true⟩,
   1, "yes", ⟨2014, 2, 4, 10, 54, 27⟩⟩

/-- A resumption token carrying only a verb and an old date. -/
def tsExpired : String :=
  dumpsFlat [(kVerb, some ("ListIdentifiers")), (kDate, some ("2014-01-01"))]

/-- A ListIdentifiers request replaying `tsExpired`. -/
def reqExpired : Request :=
  ⟨⟨[(kVerb, some ("ListIdentifiers")), (kResTok, some tsExpired)], true⟩,
   2, "yes", ⟨2014, 6, 1, 0, 0, 0⟩⟩

/-- A store whose datestamp postdates the `tsExpired` token date. -/
def storeExpired : Store :=
  ⟨fun _ _ => false, [], fun _ => [], some ⟨2014, 6, 1, 0, 0, 0⟩⟩

/-- A complete, well-formed ListRecords resumption token. -/
def tsFull : String :=
  dumpsFlat [(kVerb, some ("ListRecords")), (kMdPfx, some ("oai_dc")),
    (kOffset, some ("x")), (kDate, some ("2014-01-01")),
    (kFrom, none), (kUntil, none), (kSet, none)]

/-- A ListRecords request replaying `tsFull`. -/
def reqTokEmpty : Request :=
  ⟨⟨[(kVerb, some ("ListRecords")), (kResTok, some tsFull)], true⟩,
   2, "yes", ⟨2014, 1, 2, 0, 0, 0⟩⟩

/-- A store that matches no records at all. -/
def storeNoRecords : Store :=
  ⟨fun p _ => p == some ("oai_dc"), [], fun _ => [], none⟩

/-- A ListSets request supplying a resumption token together with an
extra parameter. -/
def reqSetsExtra : Request :=
  ⟨⟨[(kVerb, some ("ListSets")), (kResTok, some ("x")), ("foo", some ("y"))], true⟩,
   2, "yes", ⟨2014, 1, 1, 0, 0, 0⟩⟩

/-- A structurally valid but expired token for ListSets. -/
def tsSetsExpired : String :=
  dumpsFlat [(kVerb, some ("ListSets")), (kDate, some ("2014-01-01"))]

/-- A ListSets request replaying `tsSetsExpired`. -/
def reqSetsExpired : Request :=
  ⟨⟨[(kVerb, some ("ListSets")), (kResTok, some tsSetsExpired)], true⟩,
   2, "yes", ⟨2014, 6, 1, 0, 0, 0⟩⟩

/-- A store with one set whose datestamp postdates `tsSetsExpired`. -/
def storeOneSet : Store :=
  ⟨fun _ _ => false, ["a"], fun _ => [], some ⟨2014, 6, 1, 0, 0, 0⟩⟩

/-- A parameter name the validator does not expect for this verb. -/
def UnexpectedName (required allowed : List String) (n : String) : Prop :=
  n ≠ kVerb ∧ n ∉ allowed ∧ n ∉ required

/-- A parameter repeated in a multidict. -/
def RepeatedName (p : Params) (n : String) : Prop :=
  p.isMulti = true ∧ 1 < p.countName n

/-- A parameter whose value contains illegal control characters. -/
def IllegalValue (p : Params) (n : String) : Prop :=
  ∃ v, p.get n = some v ∧ contains_illegal_chars v = true

/-- Some violation other than a missing or repeated verb: an unexpected
name, a repeated name, an illegal value, or a missing required name. -/
def SomeViolation (p : Params) (required allowed : List String) : Prop :=
  (∃ n ∈ p.keys, UnexpectedName required allowed n ∨ RepeatedName p n ∨ IllegalValue p n)
  ∨ (∃ r ∈ required, p.hasName r = false)

theorem expectedName_false_iff (required allowed : List String) (n : String) :
    (!((n == kVerb) || allowed.contains n || required.contains n)) = true ↔
      UnexpectedName required allowed n := by
  unfold UnexpectedName
  simp only [Bool.not_or, Bool.and_eq_true, Bool.not_eq_eq_eq_not, Bool.not_true,
    beq_eq_false_iff_ne, List.contains, List.elem_eq_mem, decide_eq_false_iff_not,
    and_assoc]

theorem checkName_ok_iff (p : Params) (required allowed : List String) (n : String) :
    checkName p required allowed n = .ok () ↔
      ¬(UnexpectedName required allowed n ∨ RepeatedName p n ∨ IllegalValue p n) := by
  unfold checkName
  split_ifs with h1 h2
  · rw [expectedName_false_iff] at h1
    simp only [reduceCtorEq, false_iff, not_or, not_not]
    intro h; exact absurd h1 h.1
  · constructor
    · intro h; cases h
    · intro h; exact absurd (Or.inr (Or.inl h2)) h
  · rw [expectedName_false_iff] at h1
    constructor
    · intro hok
      rintro (hu | hr | ⟨w, hw, hwc⟩)
      · exact h1 hu
      · exact h2 hr
      · rw [hw] at hok
        simp only [hwc, if_true] at hok
        exact Except.noConfusion hok
    · intro h
      match hv : p.get n with
      | some v =>
        have hill : contains_illegal_chars v = false := by
          by_contra hc
          exact h (Or.inr (Or.inr ⟨v, hv, by simpa using hc⟩))
        simp only [hill, Bool.false_eq_true, if_false]
      | none => rfl

theorem checkName_shape (p : Params) (required allowed : List String) (n : String) :
    checkName p required allowed n = .ok () ∨
      ∃ m, checkName p required allowed n = .error (.badArgument m) := by
  unfold checkName
  split_ifs
  · exact Or.inr ⟨_, rfl⟩
  · exact Or.inr ⟨_, rfl⟩
  · match p.get n with
    | some v =>
      by_cases hc : contains_illegal_chars v
      · simp only [hc, if_true]; exact Or.inr ⟨_, rfl⟩
      · rw [Bool.not_eq_true] at hc
        simp only [hc, Bool.false_eq_true, if_false]
        exact Or.inl trivial
    | none =>
      exact Or.inl rfl

theorem checkNames_ok_iff (p : Params) (required allowed : List String)
    (l : List String) :
    checkNames p required allowed l = .ok () ↔
      ∀ n ∈ l, checkName p required allowed n = .ok () := by
  induction l with
  | nil => simp [checkNames]
  | cons n rest ih =>
    unfold checkNames
    constructor
    · intro h
      match hn : checkName p required allowed n with
      | .ok () =>
        rw [hn] at h
        intro m hm
        rcases List.mem_cons.mp hm with hm | hm
        · rw [hm]; exact hn
        · exact (ih.mp h) m hm
      | .error e => rw [hn] at h; cases h
    · intro h
      rw [h n (List.mem_cons_self n rest)]
      exact ih.mpr (fun m hm => h m (List.mem_cons_of_mem n hm))

theorem checkNames_shape (p : Params) (required allowed : List String)
    (l : List String) :
    checkNames p required allowed l = .ok () ∨
      ∃ m, checkNames p required allowed l = .error (.badArgument m) := by
  induction l with
  | nil => exact Or.inl rfl
  | cons n rest ih =>
    unfold checkNames
    rcases checkName_shape p required allowed n with h | ⟨m, h⟩
    · rw [h]; exact ih
    · rw [h]; exact Or.inr ⟨m, rfl⟩

theorem checkRequired_ok_iff (p : Params) (l : List String) :
    checkRequired p l = .ok () ↔ ∀ r ∈ l, p.hasName r = true := by
  induction l with
  | nil => simp [checkRequired]
  | cons r rest ih =>
    unfold checkRequired
    by_cases h : p.hasName r
    · rw [h]
      simp only [Bool.not_true, Bool.false_eq_true, if_false]
      constructor
      · intro hok m hm
        rcases List.mem_cons.mp hm with hm | hm
        · rw [hm]; exact h
        · exact ih.mp hok m hm
      · intro hall; exact ih.mpr (fun m hm => hall m (List.mem_cons_of_mem r hm))
    · rw [Bool.not_eq_true] at h
      rw [h]
      simp only [Bool.not_false, if_true]
      constructor
      · intro hok; cases hok
      · intro hall
        exact absurd (hall r (List.mem_cons_self r rest)) (by rw [h]; simp)

theorem checkRequired_shape (p : Params) (l : List String) :
    checkRequired p l = .ok () ∨
      ∃ m, checkRequired p l = .error (.badArgument m) := by
  induction l with
  | nil => exact Or.inl rfl
  | cons r rest ih =>
    unfold checkRequired
    by_cases h : p.hasName r
    · rw [h]; simpa using ih
    · rw [Bool.not_eq_true] at h
      rw [h]
      simp only [Bool.not_false, if_true]
      exact Or.inr ⟨_, rfl⟩

/-- C4: for every raw parameter set and every required/allowed name list,
the validator fails with MissingVerb when no verb parameter is present,
with RepeatedVerb when a multidict repeats the verb, and with BadArgument
on any other violation (unexpected name, repeated parameter, value with
illegal control characters, or missing required name); otherwise it
succeeds. -/
theorem c4_check_params_taxonomy (p : Params) (required allowed : List String) :
    (p.hasName kVerb = false → check_params p required allowed = .error .missingVerb)
    ∧ (p.hasName kVerb = true → p.isMulti = true → 1 < p.countName kVerb →
        check_params p required allowed = .error .repeatedVerb)
    ∧ (p.hasName kVerb = true → (p.isMulti = true → p.countName kVerb ≤ 1) →
        (¬ SomeViolation p required allowed → check_params p required allowed = .ok ())
        ∧ (SomeViolation p required allowed →
            ∃ m, check_params p required allowed = .error (.badArgument m))) := by
  refine ⟨?_, ?_, ?_⟩
  · intro h
    unfold check_params
    rw [h]
    rfl
  · intro hv hm hc
    unfold check_params
    rw [hv]
    simp only [Bool.not_true, Bool.false_eq_true, if_false]
    rw [if_pos ⟨hm, hc⟩]
  · intro hv hle
    have hnrep : ¬(p.isMulti = true ∧ 1 < p.countName kVerb) := by
      rintro ⟨hm, hc⟩
      have := hle hm
      omega
    have hshape : check_params p required allowed =
        (match checkNames p required allowed p.keys with
          | .ok _ => checkRequired p required
          | .error e => .error e) := by
      unfold check_params
      rw [hv]
      simp only [Bool.not_true, Bool.false_eq_true, if_false]
      rw [if_neg hnrep]
    constructor
    · intro hno
      unfold SomeViolation at hno
      rw [not_or] at hno
      obtain ⟨hnames, hreq⟩ := hno
      have hnok : checkNames p required allowed p.keys = .ok () := by
        rw [checkNames_ok_iff]
        intro n hn
        rw [checkName_ok_iff]
        intro hviol
        exact hnames ⟨n, hn, hviol⟩
      have hrok : checkRequired p required = .ok () := by
        rw [checkRequired_ok_iff]
        intro r hr
        by_contra hcon
        rw [Bool.not_eq_true] at hcon
        exact hreq ⟨r, hr, hcon⟩
      rw [hshape, hnok, hrok]
    · intro hsome
      unfold SomeViolation at hsome
      rcases checkNames_shape p required allowed p.keys with hnok | ⟨m, hbad⟩
      · rcases checkRequired_shape p required with hrok | ⟨m, hbad⟩
        · exfalso
          rcases hsome with ⟨n, hn, hviol⟩ | ⟨r, hr, hmiss⟩
          · have := (checkNames_ok_iff p required allowed p.keys).mp hnok n hn
            exact (checkName_ok_iff p required allowed n).mp this hviol
          · have := (checkRequired_ok_iff p required).mp hrok r hr
            rw [hmiss] at this
            exact Bool.noConfusion this
        · exact ⟨m, by rw [hshape, hnok, hbad]⟩
      · exact ⟨m, by rw [hshape, hbad]⟩

/-- Witness for C4 at concrete parameter sets. -/
theorem c4_check_params_taxonomy_witness :
    check_params ⟨[(kVerb, some ("Identify"))], true⟩ [] [] = .ok ()
    ∧ check_params ⟨[], true⟩ [] [] = .error .missingVerb := by
  constructor
  · apply ((c4_check_params_taxonomy ⟨[(kVerb, some ("Identify"))], true⟩ [] []).2.2
      (by decide) (fun _ => by decide)).1
    rintro (⟨n, hn, hviol⟩ | ⟨r, hr, _⟩)
    · have hnv : n = kVerb := by
        simpa [Params.keys, kVerb] using hn
      rcases hviol with ⟨hne, _, _⟩ | ⟨_, hc⟩ | ⟨v, hv, hvc⟩
      · exact hne hnv
      · rw [hnv] at hc
        have : Params.countName ⟨[(kVerb, some ("Identify"))], true⟩ kVerb = 1 := rfl
        omega
      · rw [hnv] at hv
        have : Params.get ⟨[(kVerb, some ("Identify"))], true⟩ kVerb = some ("Identify") := rfl
        rw [this] at hv
        cases hv
        exact absurd hvc (by decide)
    · cases hr
  · exact (c4_check_params_taxonomy ⟨[], true⟩ [] []).1 (by decide)

/-- C10: the message of `NoMetadataFormats` is the constant literal text
with the printf-style placeholder left uninterpolated — the supplied
identifier never enters the message, because the `%s` placeholder is
combined with `str.format`. -/
theorem c10_noMetadataFormats_message_constant (identifier : String) :
    NoMetadataFormats_message identifier =
      some ("No metadata formats available for item \x22%s\x22.") := rfl

theorem parse_date_day_defaults (s : String) (dh dm ds : Nat) (t : PyDateTime)
    (h : parse_date s dh dm ds = .ok (t, .day)) :
    t.hour = dh ∧ t.minute = dm ∧ t.second = ds := by
  unfold parse_date at h
  split at h
  · split at h
    · dsimp only at h
      split at h
      · injection h with h1
        injection h1 with hfst hsnd
        rw [← hfst]
        exact ⟨rfl, rfl, rfl⟩
      · exact Except.noConfusion h
    · exact Except.noConfusion h
  · split at h
    · dsimp only at h
      split at h
      · injection h with h1
        injection h1 with hfst hsnd
        exact Granularity.noConfusion hsnd
      · exact Except.noConfusion h
    · exact Except.noConfusion h
  · exact Except.noConfusion h

/-- C6: when both `from` and `until` are supplied, differing
granularities fail with BadArgument and `from` greater than `until`
(same granularity) fails with BadArgument; an `until` value carrying no
time component is parsed with the time of day defaulted to 23:59:59. -/
theorem c6_from_until_contract :
    (∀ fs us fd fg ud ug, parse_date fs 0 0 0 = .ok (fd, fg) →
       parse_date us 23 59 59 = .ok (ud, ug) → fg ≠ ug →
       parse_from_and_until (some fs) (some us) = .error (.badArgument
         (filter_illegal_chars
           ("Datestamps \x22from\x22 and \x22until\x22 have different granularity"))))
    ∧ (∀ fs us fd g ud, parse_date fs 0 0 0 = .ok (fd, g) →
       parse_date us 23 59 59 = .ok (ud, g) → PyDateTime.le fd ud = false →
       parse_from_and_until (some fs) (some us) = .error (.badArgument
         (filter_illegal_chars ("Datestamp \x22from\x22 is greater than \x22until\x22"))))
    ∧ (∀ us ud, parse_date us 23 59 59 = .ok (ud, .day) →
       ud.hour = 23 ∧ ud.minute = 59 ∧ ud.second = 59 ∧
       parse_from_and_until none (some us) = .ok (none, some ud)) := by
  refine ⟨?_, ?_, ?_⟩
  · intro fs us fd fg ud ug hf hu hne
    unfold parse_from_and_until
    dsimp only
    rw [hf, hu]
    simp only []
    rw [if_pos]
    exact fun hcon => hne (Option.some_injective _ hcon)
  · intro fs us fd g ud hf hu hlt
    unfold parse_from_and_until
    dsimp only
    rw [hf, hu]
    simp only []
    rw [if_neg (by simp), if_pos hlt]
  · intro us ud h
    obtain ⟨h1, h2, h3⟩ := parse_date_day_defaults us 23 59 59 ud h
    refine ⟨h1, h2, h3, ?_⟩
    unfold parse_from_and_until
    dsimp only
    rw [h]

/-- Witness for C6 at concrete date strings. -/
theorem c6_from_until_witness :
    parse_from_and_until (some ("2014-02-04")) (some ("2014-01-01T00:00:00Z"))
      = .error (.badArgument (filter_illegal_chars
          ("Datestamps \x22from\x22 and \x22until\x22 have different granularity")))
    ∧ parse_from_and_until (some ("2014-02-04")) (some ("2014-01-01"))
      = .error (.badArgument (filter_illegal_chars
          ("Datestamp \x22from\x22 is greater than \x22until\x22")))
    ∧ parse_from_and_until none (some ("2014-02-04"))
      = .ok (none, some ⟨2014, 2, 4, 23, 59, 59⟩) := by
  refine ⟨?_, ?_, ?_⟩
  · exact c6_from_until_contract.1 _ _ ⟨2014, 2, 4, 0, 0, 0⟩ .day
      ⟨2014, 1, 1, 0, 0, 0⟩ .second (by rfl) (by rfl) (by decide)
  · exact c6_from_until_contract.2.1 _ _ ⟨2014, 2, 4, 0, 0, 0⟩ .day
      ⟨2014, 1, 1, 23, 59, 59⟩ (by rfl) (by rfl) (by rfl)
  · exact (c6_from_until_contract.2.2 _ ⟨2014, 2, 4, 23, 59, 59⟩ (by rfl)).2.2.2

theorem clLt_irrefl (l : List Char) : clLt l l = false := by
  induction l with
  | nil => rfl
  | cons c cs ih =>
    unfold clLt
    simp only [Nat.lt_irrefl, if_false]
    exact ih

theorem clLt_of_properPfx (l1 l2 : List Char) (hp : ProperPfx l1 l2) :
    clLt l1 l2 = true := by
  obtain ⟨⟨t, ht⟩, hne⟩ := hp
  induction l1 generalizing l2 with
  | nil =>
    match l2 with
    | [] => exact absurd rfl hne
    | c :: cs => rfl
  | cons a as ih =>
    match l2 with
    | [] => cases ht
    | b :: bs =>
      have hab : a = b := (List.cons.injEq _ _ _ _ ▸ ht).1
      have hts : as ++ t = bs := by
        injection ht with h1 h2
      subst hab
      unfold clLt
      simp only [Nat.lt_irrefl, if_false]
      apply ih bs
      · intro hcon
        exact hne (by rw [hcon])
      · exact hts

theorem clLt_asymm (a b : List Char) (h : clLt a b = true) : clLt b a = false := by
  induction a generalizing b with
  | nil =>
    match b with
    | [] => exact absurd h (by simp [clLt])
    | c :: cs => rfl
  | cons x xs ih =>
    match b with
    | [] => simp [clLt] at h
    | y :: ys =>
      unfold clLt at h ⊢
      by_cases h1 : x.toNat < y.toNat
      · rw [if_pos h1] at h
        rw [if_neg (by omega), if_pos h1]
      · rw [if_neg h1] at h
        by_cases h2 : y.toNat < x.toNat
        · rw [if_pos h2] at h
          exact Bool.noConfusion h
        · rw [if_neg h2] at h
          rw [if_neg h2, if_neg h1]
          exact ih ys h

theorem clLt_trans (a b c : List Char) (h1 : clLt a b = true)
    (h2 : clLt b c = true) : clLt a c = true := by
  induction a generalizing b c with
  | nil =>
    match b, c with
    | [], _ => simp [clLt] at h1
    | _ :: _, [] => simp [clLt] at h2
    | _ :: _, _ :: _ => rfl
  | cons x xs ih =>
    match b, c with
    | [], _ => simp [clLt] at h1
    | _ :: _, [] => simp [clLt] at h2
    | y :: ys, z :: zs =>
      unfold clLt at h1 h2 ⊢
      by_cases hxy : x.toNat < y.toNat
      · by_cases hyz : y.toNat < z.toNat
        · rw [if_pos (by omega)]
        · rw [if_neg hyz] at h2
          by_cases hzy : z.toNat < y.toNat
          · rw [if_pos hzy] at h2
            exact Bool.noConfusion h2
          · rw [if_pos (by omega)]
      · rw [if_neg hxy] at h1
        by_cases hyx : y.toNat < x.toNat
        · rw [if_pos hyx] at h1
          exact Bool.noConfusion h1
        · rw [if_neg hyx] at h1
          by_cases hyz : y.toNat < z.toNat
          · rw [if_pos (by omega)]
          · rw [if_neg hyz] at h2
            by_cases hzy : z.toNat < y.toNat
            · rw [if_pos hzy] at h2
              exact Bool.noConfusion h2
            · rw [if_neg hzy] at h2
              rw [if_neg (by omega), if_neg (by omega)]
              exact ih ys zs h1 h2

theorem insortPair_perm (x : String × String) (l : List (String × String)) :
    List.Perm (insortPair x l) (x :: l) := by
  induction l with
  | nil => exact List.Perm.refl _
  | cons y ys ih =>
    unfold insortPair
    split
    · exact List.Perm.refl _
    · exact (List.Perm.cons y ih).trans (List.Perm.swap x y ys)

theorem sortPairs_perm (l : List (String × String)) : List.Perm (sortPairs l) l := by
  induction l with
  | nil => exact List.Perm.refl _
  | cons x xs ih =>
    exact (insortPair_perm x (sortPairs xs)).trans (List.Perm.cons x ih)

theorem insortPair_pairwise (x : String × String) (l : List (String × String))
    (h : l.Pairwise (fun p q => clLt q.1.data p.1.data = false)) :
    (insortPair x l).Pairwise (fun p q => clLt q.1.data p.1.data = false) := by
  induction l with
  | nil => exact List.pairwise_singleton _ _
  | cons y ys ih =>
    rw [List.pairwise_cons] at h
    obtain ⟨hy, hys⟩ := h
    unfold insortPair
    split
    · next hlt =>
      rw [List.pairwise_cons]
      refine ⟨?_, List.Pairwise.cons hy hys⟩
      intro z hz
      rcases List.mem_cons.mp hz with rfl | hz
      · exact clLt_asymm _ _ hlt
      · by_contra hzx
        rw [Bool.not_eq_false] at hzx
        have : clLt z.1.data y.1.data = true := clLt_trans _ _ _ hzx hlt
        rw [hy z hz] at this
        exact Bool.noConfusion this
    · next hnlt =>
      rw [List.pairwise_cons]
      refine ⟨?_, ih hys⟩
      intro z hz
      rcases List.mem_cons.mp ((insortPair_perm x ys).mem_iff.mp hz) with rfl | hz
      · rw [Bool.not_eq_true] at hnlt
        exact hnlt
      · exact hy z hz

theorem sortPairs_pairwise (l : List (String × String)) :
    (sortPairs l).Pairwise (fun p q => clLt q.1.data p.1.data = false) := by
  induction l with
  | nil => exact List.Pairwise.nil
  | cons x xs ih => exact insortPair_pairwise x (sortPairs xs) ih

/-- C8: `update_sets` looks the item up, clears its set memberships,
then upserts each set and adds the item to it, in ascending
lexicographic order of the spec string (a permutation of the provider's
pairs), so an ancestor spec (a proper prefix) is always created before
its descendants. -/
theorem c8_update_sets_sorted (pairs : List (String × String)) (ident : String) :
    update_sets pairs ident false =
      HarvestOp.itemGet ident :: HarvestOp.clearSets ::
        (sortPairs pairs).flatMap
          (fun p => [HarvestOp.setCreateOrUpdate p.1 p.2, HarvestOp.addToSet p.1 p.2])
    ∧ List.Perm (sortPairs pairs) pairs
    ∧ (sortPairs pairs).Pairwise (fun p q => clLt q.1.data p.1.data = false)
    ∧ (∀ i j (hi : i < (sortPairs pairs).length) (hj : j < (sortPairs pairs).length),
        ProperPfx ((sortPairs pairs).get ⟨i, hi⟩).1.data
          ((sortPairs pairs).get ⟨j, hj⟩).1.data → i < j) := by
  refine ⟨rfl, sortPairs_perm pairs, sortPairs_pairwise pairs, ?_⟩
  intro i j hi hj hp
  rcases Nat.lt_trichotomy i j with hlt | heq | hgt
  · exact hlt
  · exfalso
    subst heq
    exact hp.2 rfl
  · exfalso
    have hpw := (List.pairwise_iff_get.mp (sortPairs_pairwise pairs))
      ⟨j, hj⟩ ⟨i, hi⟩ hgt
    rw [clLt_of_properPfx _ _ hp] at hpw
    exact Bool.noConfusion hpw

/-- Witness for C8 at the unit test's set hierarchy. -/
theorem c8_update_sets_sorted_witness :
    update_sets [("a:b", "Set B"), ("a", "Set A"), ("a:b:c", "Set C")]
        ("oai:example.org:item") false =
      [HarvestOp.itemGet ("oai:example.org:item"), HarvestOp.clearSets,
       HarvestOp.setCreateOrUpdate ("a") ("Set A"), HarvestOp.addToSet ("a") ("Set A"),
       HarvestOp.setCreateOrUpdate ("a:b") ("Set B"), HarvestOp.addToSet ("a:b") ("Set B"),
       HarvestOp.setCreateOrUpdate ("a:b:c") ("Set C"), HarvestOp.addToSet ("a:b:c") ("Set C")]
    ∧ 0 < 2 := by
  constructor
  · exact ((c8_update_sets_sorted [("a:b", "Set B"), ("a", "Set A"), ("a:b:c", "Set C")]
      ("oai:example.org:item")).1).trans (by decide)
  · exact (c8_update_sets_sorted [("a:b", "Set B"), ("a", "Set A"), ("a:b:c", "Set C")]
      ("oai:example.org:item")).2.2.2 0 2 (by decide) (by decide)
      ⟨⟨(":b:c").data, by decide⟩, by decide⟩

/-- C9: `update_items` upserts each distinct provider identifier exactly
once (identifiers absent from the provider are never upserted) and
returns the duplicate-free set of provider identifiers. -/
theorem c9_update_items_dedup (providerIds storeIds : List String) (purge : Bool) :
    (∀ i, List.count (HarvestOp.itemCreateOrUpdate i)
        (update_items providerIds storeIds purge false).1
        = if i ∈ providerIds then 1 else 0)
    ∧ (∀ x, x ∈ (update_items providerIds storeIds purge false).2 ↔ x ∈ providerIds)
    ∧ (update_items providerIds storeIds purge false).2.Nodup := by
  refine ⟨?_, ?_, ?_⟩
  · intro i
    unfold update_items
    simp only [Bool.false_eq_true, if_false]
    rw [List.count_append, List.count_append, List.count_append]
    have h1 : List.count (HarvestOp.itemCreateOrUpdate i)
        ((storeIds.filter (fun j => !providerIds.dedup.contains j)).map
          HarvestOp.itemMarkDeleted) = 0 := by
      rw [List.count_eq_zero]
      intro hmem
      rcases List.mem_map.mp hmem with ⟨a, _, ha⟩
      exact HarvestOp.noConfusion ha
    have h2 : List.count (HarvestOp.itemCreateOrUpdate i)
        (providerIds.dedup.map HarvestOp.itemCreateOrUpdate)
        = List.count i providerIds.dedup :=
      List.count_map_of_injective _ _ (fun a b h => by injection h) i
    have h3 : List.count (HarvestOp.itemCreateOrUpdate i)
        (if purge then [HarvestOp.purgeDeleted] else []) = 0 := by
      cases purge
      · rfl
      · rfl
    have h4 : List.count (HarvestOp.itemCreateOrUpdate i) [HarvestOp.commitStore] = 0 := rfl
    rw [h1, h2, h3, h4]
    by_cases hm : i ∈ providerIds
    · rw [if_pos hm,
        List.count_eq_one_of_mem (List.nodup_dedup _) (List.mem_dedup.mpr hm)]
    · rw [if_neg hm, List.count_eq_zero.mpr (fun hc => hm (List.mem_dedup.mp hc))]
  · intro x
    unfold update_items
    exact List.mem_dedup
  · exact List.nodup_dedup _

/-- Witness for C9 at the unit test's duplicated identifier list. -/
theorem c9_update_items_dedup_witness :
    List.count (HarvestOp.itemCreateOrUpdate ("i1"))
      (update_items ["i2", "i1", "i3", "i1", "i1", "i2"] [] false false).1 = 1
    ∧ ("i3" ∈ (update_items ["i2", "i1", "i3", "i1", "i1", "i2"] [] false false).2)
    ∧ (update_items ["i2", "i1", "i3", "i1", "i1", "i2"] [] false false).2.Nodup := by
  refine ⟨?_, ?_, ?_⟩
  · exact ((c9_update_items_dedup ["i2", "i1", "i3", "i1", "i1", "i2"] [] false).1
      ("i1")).trans (by decide)
  · exact ((c9_update_items_dedup ["i2", "i1", "i3", "i1", "i1", "i2"] [] false).2.1
      ("i3")).mpr (by decide)
  · exact (c9_update_items_dedup ["i2", "i1", "i3", "i1", "i1", "i2"] [] false).2.2

theorem char_toNat_ofNat_small (n : Nat) (h : n < 55296) : (Char.ofNat n).toNat = n := by
  unfold Char.ofNat
  rw [dif_pos (Or.inl h)]
  rfl

theorem parseJStr_quote (l : List Char) : parseJStr (qmarkC :: l) = some ([], l) := by
  unfold parseJStr
  rw [if_pos rfl]

theorem parseJStr_plain (c : Char) (l : List Char) (hq : c ≠ qmarkC)
    (hb : c ≠ bslashC) (hc : ¬ c.toNat < 32) :
    parseJStr (c :: l) =
      match parseJStr l with
      | some (r, rest) => some (c :: r, rest)
      | none => none := by
  rw [parseJStr.eq_def]
  dsimp only
  rw [if_neg hq, if_neg hb, if_neg hc]

theorem parseJStr_escSimple (e c' : Char) (l : List Char) (hu : e ≠ 'u')
    (he : unescape1 e = some c') :
    parseJStr (bslashC :: e :: l) =
      match parseJStr l with
      | some (r, rest) => some (c' :: r, rest)
      | none => none := by
  rw [parseJStr.eq_def]
  dsimp only
  rw [if_neg hu, he]
  rw [if_neg (show bslashC ≠ qmarkC by decide), if_pos rfl]
  cases hl : parseJStr l with
  | none => rfl
  | some pr =>
    obtain ⟨r, rest2⟩ := pr
    rfl

theorem parseJStr_escU (h1 h2 h3 h4 : Char) (a b c2 d : Nat) (l : List Char)
    (e1 : hexVal h1 = some a) (e2 : hexVal h2 = some b)
    (e3 : hexVal h3 = some c2) (e4 : hexVal h4 = some d) :
    parseJStr (bslashC :: 'u' :: h1 :: h2 :: h3 :: h4 :: l) =
      match parseJStr l with
      | some (r, rest) =>
        some (Char.ofNat (((a * 16 + b) * 16 + c2) * 16 + d) :: r, rest)
      | none => none := by
  rw [parseJStr.eq_def]
  dsimp only
  rw [e1, e2, e3, e4]
  rw [if_neg (show bslashC ≠ qmarkC by decide), if_pos rfl, if_pos rfl]
  cases hl : parseJStr l with
  | none => rfl
  | some pr =>
    obtain ⟨r, rest2⟩ := pr
    rfl

theorem hexVal_hexDigitC : ∀ n, n < 16 → hexVal (hexDigitC n) = some n := by decide

theorem parseJStr_escape (cs rest : List Char) :
    parseJStr (cs.flatMap jsonEscapeChar ++ qmarkC :: rest) = some (cs, rest) := by
  induction cs with
  | nil => exact parseJStr_quote rest
  | cons c cs ih =>
    rw [List.flatMap_cons, List.append_assoc]
    by_cases h1 : c = qmarkC
    · subst h1
      rw [show jsonEscapeChar qmarkC = [bslashC, qmarkC] from rfl,
        List.cons_append, List.cons_append, List.nil_append,
        parseJStr_escSimple qmarkC qmarkC _ (by decide) (by decide), ih]
    · by_cases h2 : c = bslashC
      · subst h2
        rw [show jsonEscapeChar bslashC = [bslashC, bslashC] from rfl,
          List.cons_append, List.cons_append, List.nil_append,
          parseJStr_escSimple bslashC bslashC _ (by decide) (by decide), ih]
      · by_cases h3 : c.toNat = 8
        · have hc : c = Char.ofNat 8 := by rw [← h3, Char.ofNat_toNat]
          subst hc
          rw [show jsonEscapeChar (Char.ofNat 8) = [bslashC, 'b'] from rfl,
            List.cons_append, List.cons_append, List.nil_append,
            parseJStr_escSimple 'b' (Char.ofNat 8) _ (by decide) (by decide), ih]
        · by_cases h4 : c.toNat = 9
          · have hc : c = Char.ofNat 9 := by rw [← h4, Char.ofNat_toNat]
            subst hc
            rw [show jsonEscapeChar (Char.ofNat 9) = [bslashC, 't'] from rfl,
              List.cons_append, List.cons_append, List.nil_append,
              parseJStr_escSimple 't' (Char.ofNat 9) _ (by decide) (by decide), ih]
          · by_cases h5 : c.toNat = 10
            · have hc : c = Char.ofNat 10 := by rw [← h5, Char.ofNat_toNat]
              subst hc
              rw [show jsonEscapeChar (Char.ofNat 10) = [bslashC, 'n'] from rfl,
                List.cons_append, List.cons_append, List.nil_append,
                parseJStr_escSimple 'n' (Char.ofNat 10) _ (by decide) (by decide), ih]
            · by_cases h6 : c.toNat = 12
              · have hc : c = Char.ofNat 12 := by rw [← h6, Char.ofNat_toNat]
                subst hc
                rw [show jsonEscapeChar (Char.ofNat 12) = [bslashC, 'f'] from rfl,
                  List.cons_append, List.cons_append, List.nil_append,
                  parseJStr_escSimple 'f' (Char.ofNat 12) _ (by decide) (by decide), ih]
              · by_cases h7 : c.toNat = 13
                · have hc : c = Char.ofNat 13 := by rw [← h7, Char.ofNat_toNat]
                  subst hc
                  rw [show jsonEscapeChar (Char.ofNat 13) = [bslashC, 'r'] from rfl,
                    List.cons_append, List.cons_append, List.nil_append,
                    parseJStr_escSimple 'r' (Char.ofNat 13) _ (by decide) (by decide), ih]
                · by_cases h8 : c.toNat < 32
                  · have hesc : jsonEscapeChar c =
                        [bslashC, 'u', '0', '0', hexDigitC (c.toNat / 16),
                         hexDigitC (c.toNat % 16)] := by
                      unfold jsonEscapeChar
                      rw [if_neg h1, if_neg h2, if_neg h3, if_neg h4, if_neg h5,
                        if_neg h6, if_neg h7, if_pos h8]
                    rw [hesc]
                    simp only [List.cons_append, List.nil_append]
                    rw [parseJStr_escU '0' '0' (hexDigitC (c.toNat / 16))
                      (hexDigitC (c.toNat % 16)) 0 0 (c.toNat / 16) (c.toNat % 16) _
                      (by decide) (by decide)
                      (hexVal_hexDigitC _ (by omega)) (hexVal_hexDigitC _ (by omega)), ih]
                    have harith : ((0 * 16 + 0) * 16 + c.toNat / 16) * 16 + c.toNat % 16
                        = c.toNat := by omega
                    rw [harith, Char.ofNat_toNat]
                  · have hesc : jsonEscapeChar c = [c] := by
                      unfold jsonEscapeChar
                      rw [if_neg h1, if_neg h2, if_neg h3, if_neg h4, if_neg h5,
                        if_neg h6, if_neg h7, if_neg h8]
                    rw [hesc, List.cons_append, List.nil_append,
                      parseJStr_plain c _ h1 h2 h8, ih]

theorem string_mk_data (s : String) : String.mk s.data = s := by
  cases s
  rfl

theorem skipWs_not_ws (c : Char) (l : List Char) (h : isJsonWs c = false) :
    skipWs (c :: l) = c :: l := by
  unfold skipWs
  rw [h]
  rfl

theorem skipWs_space (l : List Char) : skipWs (' ' :: l) = skipWs l := by
  rw [skipWs]
  rfl

theorem parseJValue_value (v : Option String) (tail : List Char) :
    parseJValue (jsonValueStr v ++ tail) = some (v, tail) := by
  cases v with
  | none => rfl
  | some s =>
    show parseJValue (jsonQuote s ++ tail) = some (some s, tail)
    unfold jsonQuote
    simp only [List.cons_append, List.append_assoc, List.singleton_append,
      List.nil_append]
    unfold parseJValue
    dsimp only
    rw [if_pos rfl]
    rw [show jsonEscape s = s.data.flatMap jsonEscapeChar from rfl]
    rw [parseJStr_escape s.data tail]
    rw [Option.map_some']

theorem skipWs_value (v : Option String) (tail : List Char) :
    skipWs (jsonValueStr v ++ tail) = jsonValueStr v ++ tail := by
  cases v with
  | none => exact skipWs_not_ws _ _ (by decide)
  | some s =>
    show skipWs (jsonQuote s ++ tail) = jsonQuote s ++ tail
    unfold jsonQuote
    rw [List.cons_append]
    exact skipWs_not_ws _ _ (by decide)

theorem parseJMember_member (k : String) (v : Option String) (tail : List Char) :
    parseJMember (jsonQuote k ++ ':' :: ' ' :: (jsonValueStr v ++ tail))
      = some ((k, v), tail) := by
  unfold jsonQuote
  simp only [List.cons_append, List.append_assoc, List.singleton_append,
    List.nil_append]
  unfold parseJMember
  rw [skipWs_not_ws _ _ (by decide)]
  dsimp only
  rw [if_pos rfl]
  rw [show jsonEscape k = k.data.flatMap jsonEscapeChar from rfl]
  rw [parseJStr_escape k.data (':' :: ' ' :: (jsonValueStr v ++ tail))]
  dsimp only
  rw [skipWs_not_ws _ _ (by decide)]
  dsimp only
  rw [if_pos rfl]
  rw [skipWs_space, skipWs_value]
  rw [parseJValue_value]

theorem parseJMembers_members (entries : List (String × Option String)) :
    ∀ (tail : List Char) (fuel : Nat), entries ≠ [] → entries.length ≤ fuel →
    parseJMembers fuel (membersChars entries ++ rbraceC :: tail)
      = some (entries, tail) := by
  induction entries with
  | nil => intro tail fuel h _; exact absurd rfl h
  | cons kv rest ih =>
    intro tail fuel _ hf
    match fuel, hf with
    | fuel + 1, hf =>
      obtain ⟨k, v⟩ := kv
      match rest with
      | [] =>
        show parseJMembers (fuel + 1)
          ((jsonQuote k ++ ':' :: ' ' :: jsonValueStr v) ++ rbraceC :: tail)
          = some ([(k, v)], tail)
        unfold parseJMembers
        simp only [List.append_assoc, List.cons_append]
        rw [parseJMember_member k v (rbraceC :: tail)]
        dsimp only
        rw [skipWs_not_ws _ _ (by decide)]
        dsimp only
        rw [if_neg (by decide), if_pos rfl]
      | r2 :: rs =>
        show parseJMembers (fuel + 1)
          ((jsonQuote k ++ ':' :: ' ' :: jsonValueStr v ++
            ',' :: ' ' :: membersChars (r2 :: rs)) ++ rbraceC :: tail)
          = some ((k, v) :: r2 :: rs, tail)
        unfold parseJMembers
        simp only [List.append_assoc, List.cons_append]
        rw [parseJMember_member k v
          (',' :: ' ' :: (membersChars (r2 :: rs) ++ rbraceC :: tail))]
        dsimp only
        rw [skipWs_not_ws _ _ (by decide)]
        dsimp only
        rw [if_pos rfl]
        have hlen : (r2 :: rs).length ≤ fuel := by
          simp only [List.length_cons] at hf ⊢
          omega
        have hstep : parseJMembers fuel
            (' ' :: (membersChars (r2 :: rs) ++ rbraceC :: tail))
            = parseJMembers fuel (membersChars (r2 :: rs) ++ rbraceC :: tail) := by
          match fuel, hlen with
          | fuel + 1, _ =>
            unfold parseJMembers
            rw [show parseJMember (' ' :: (membersChars (r2 :: rs) ++ rbraceC :: tail))
              = parseJMember (membersChars (r2 :: rs) ++ rbraceC :: tail) from by
              unfold parseJMember
              rw [skipWs_space]]
        rw [hstep, ih tail fuel (by simp) hlen]

theorem membersChars_length (entries : List (String × Option String)) :
    entries.length ≤ (membersChars entries).length := by
  induction entries with
  | nil => exact Nat.le_refl 0
  | cons kv rest ih =>
    obtain ⟨k, v⟩ := kv
    match rest with
    | [] =>
      show 1 ≤ (jsonQuote k ++ ':' :: ' ' :: jsonValueStr v).length
      simp [jsonQuote]
    | r2 :: rs =>
      show (r2 :: rs).length + 1 ≤
        (jsonQuote k ++ ':' :: ' ' :: jsonValueStr v ++
          ',' :: ' ' :: membersChars (r2 :: rs)).length
      have := ih
      simp only [jsonQuote, List.length_append, List.length_cons] at this ⊢
      omega

theorem membersChars_head (kv : String × Option String)
    (rest : List (String × Option String)) :
    ∃ l', membersChars (kv :: rest) = qmarkC :: l' := by
  obtain ⟨k, v⟩ := kv
  match rest with
  | [] => exact ⟨_, rfl⟩
  | r2 :: rs => exact ⟨_, rfl⟩

theorem loadsFlat_dumpsFlat (entries : List (String × Option String)) :
    loadsFlat (dumpsFlat entries) = some (toPyDict entries) := by
  unfold loadsFlat dumpsFlat
  rw [show (String.mk ((lbraceC :: membersChars entries) ++ [rbraceC])).data
    = (lbraceC :: membersChars entries) ++ [rbraceC] from rfl]
  rw [List.cons_append]
  rw [skipWs_not_ws _ _ (by decide)]
  dsimp only
  rw [if_pos rfl]
  match entries with
  | [] => rfl
  | kv :: rest =>
    obtain ⟨l', hl'⟩ := membersChars_head kv rest
    rw [hl', List.cons_append]
    rw [skipWs_not_ws _ _ (by decide)]
    dsimp only
    rw [if_neg (by decide)]
    rw [show qmarkC :: (l' ++ [rbraceC]) = (qmarkC :: l') ++ rbraceC :: [] from rfl]
    rw [← hl']
    rw [parseJMembers_members (kv :: rest) [] _ (by simp) ?hfuel]
    case hfuel =>
      have h1 := membersChars_length (kv :: rest)
      simp only [List.length_append, List.length_cons, List.length_nil] at h1 ⊢
      omega
    rfl

theorem isDig_mod (n : Nat) : isDig (Char.ofNat (48 + n % 10)) = true := by
  have h : n % 10 < 10 := Nat.mod_lt _ (by omega)
  have h2 := char_toNat_ofNat_small (48 + n % 10) (by omega)
  unfold isDig
  rw [h2]
  simp only [Bool.and_eq_true, decide_eq_true_eq]
  omega

theorem digVal_mod (n : Nat) : digVal (Char.ofNat (48 + n % 10)) = n % 10 := by
  have h : n % 10 < 10 := Nat.mod_lt _ (by omega)
  have h2 := char_toNat_ofNat_small (48 + n % 10) (by omega)
  unfold digVal
  rw [h2]
  omega

theorem parse_format_roundtrip (t : PyDateTime) (dh dm ds : Nat)
    (hy : t.year ≤ 9999) (hmo1 : 1 ≤ t.month) (hmo2 : t.month ≤ 12)
    (hd1 : 1 ≤ t.day) (hd2 : t.day ≤ 31) (hh : t.hour ≤ 23)
    (hmi : t.minute ≤ 59) (hs : t.second ≤ 59) :
    parse_date (format_datestamp t) dh dm ds = .ok (t, .second) := by
  obtain ⟨y, mo, da, h, mi, sec⟩ := t
  simp only at hy hmo1 hmo2 hd1 hd2 hh hmi hs
  have hdata : (format_datestamp ⟨y, mo, da, h, mi, sec⟩).data =
      [Char.ofNat (48 + y / 1000 % 10), Char.ofNat (48 + y / 100 % 10),
       Char.ofNat (48 + y / 10 % 10), Char.ofNat (48 + y % 10), '-',
       Char.ofNat (48 + mo / 10 % 10), Char.ofNat (48 + mo % 10), '-',
       Char.ofNat (48 + da / 10 % 10), Char.ofNat (48 + da % 10), 'T',
       Char.ofNat (48 + h / 10 % 10), Char.ofNat (48 + h % 10), ':',
       Char.ofNat (48 + mi / 10 % 10), Char.ofNat (48 + mi % 10), ':',
       Char.ofNat (48 + sec / 10 % 10), Char.ofNat (48 + sec % 10), 'Z'] := by
    rfl
  rw [parse_date.eq_def, hdata]
  dsimp only
  rw [show (48 + y % 10) = (48 + y / 1 % 10) from by rw [Nat.div_one]]
  rw [show (48 + mo % 10) = (48 + mo / 1 % 10) from by rw [Nat.div_one]]
  rw [show (48 + da % 10) = (48 + da / 1 % 10) from by rw [Nat.div_one]]
  rw [show (48 + h % 10) = (48 + h / 1 % 10) from by rw [Nat.div_one]]
  rw [show (48 + mi % 10) = (48 + mi / 1 % 10) from by rw [Nat.div_one]]
  rw [show (48 + sec % 10) = (48 + sec / 1 % 10) from by rw [Nat.div_one]]
  simp only [isDig_mod, digVal_mod]
  rw [if_pos (by rfl)]
  rw [if_pos ?hcond]
  case hcond =>
    simp only [Bool.and_eq_true, decide_eq_true_eq]
    omega
  refine congrArg _ ?_
  refine congrArg (fun x => (x, Granularity.second)) ?_
  have e1 : y / 1000 % 10 * 1000 + y / 100 % 10 * 100 + y / 10 % 10 * 10 + y / 1 % 10
      = y := by omega
  have e2 : mo / 10 % 10 * 10 + mo / 1 % 10 = mo := by omega
  have e3 : da / 10 % 10 * 10 + da / 1 % 10 = da := by omega
  have e4 : h / 10 % 10 * 10 + h / 1 % 10 = h := by omega
  have e5 : mi / 10 % 10 * 10 + mi / 1 % 10 = mi := by omega
  have e6 : sec / 10 % 10 * 10 + sec / 1 % 10 = sec := by omega
  rw [e1, e2, e3, e4, e5, e6]

theorem hexDigitC_ge32 : ∀ n, n < 16 → 32 ≤ (hexDigitC n).toNat := by decide

theorem jsonEscapeChar_ge32 (c : Char) : ∀ c' ∈ jsonEscapeChar c, 32 ≤ c'.toNat := by
  intro c' hmem
  unfold jsonEscapeChar at hmem
  by_cases h1 : c = qmarkC
  · rw [if_pos h1] at hmem
    simp only [List.mem_cons, List.not_mem_nil, or_false] at hmem
    rcases hmem with rfl | rfl <;> decide
  · rw [if_neg h1] at hmem
    by_cases h2 : c = bslashC
    · rw [if_pos h2] at hmem
      simp only [List.mem_cons, List.not_mem_nil, or_false] at hmem
      rcases hmem with rfl | rfl <;> decide
    · rw [if_neg h2] at hmem
      by_cases h3 : c.toNat = 8
      · rw [if_pos h3] at hmem
        simp only [List.mem_cons, List.not_mem_nil, or_false] at hmem
        rcases hmem with rfl | rfl <;> decide
      · rw [if_neg h3] at hmem
        by_cases h4 : c.toNat = 9
        · rw [if_pos h4] at hmem
          simp only [List.mem_cons, List.not_mem_nil, or_false] at hmem
          rcases hmem with rfl | rfl <;> decide
        · rw [if_neg h4] at hmem
          by_cases h5 : c.toNat = 10
          · rw [if_pos h5] at hmem
            simp only [List.mem_cons, List.not_mem_nil, or_false] at hmem
            rcases hmem with rfl | rfl <;> decide
          · rw [if_neg h5] at hmem
            by_cases h6 : c.toNat = 12
            · rw [if_pos h6] at hmem
              simp only [List.mem_cons, List.not_mem_nil, or_false] at hmem
              rcases hmem with rfl | rfl <;> decide
            · rw [if_neg h6] at hmem
              by_cases h7 : c.toNat = 13
              · rw [if_pos h7] at hmem
                simp only [List.mem_cons, List.not_mem_nil, or_false] at hmem
                rcases hmem with rfl | rfl <;> decide
              · rw [if_neg h7] at hmem
                by_cases h8 : c.toNat < 32
                · rw [if_pos h8] at hmem
                  simp only [List.mem_cons, List.not_mem_nil, or_false] at hmem
                  rcases hmem with rfl | rfl | rfl | rfl | rfl | rfl
                  · decide
                  · decide
                  · decide
                  · decide
                  · exact hexDigitC_ge32 _ (by omega)
                  · exact hexDigitC_ge32 _ (by omega)
                · rw [if_neg h8] at hmem
                  simp only [List.mem_cons, List.not_mem_nil, or_false] at hmem
                  subst hmem
                  omega

theorem jsonQuote_ge32 (s : String) : ∀ c ∈ jsonQuote s, 32 ≤ c.toNat := by
  intro c hc
  unfold jsonQuote at hc
  rcases List.mem_cons.mp hc with rfl | hc
  · decide
  · rcases List.mem_append.mp hc with hc | hc
    · rcases List.mem_flatMap.mp hc with ⟨c0, _, hc0⟩
      exact jsonEscapeChar_ge32 c0 c hc0
    · simp only [List.mem_singleton] at hc
      subst hc
      decide

theorem jsonValueStr_ge32 (v : Option String) : ∀ c ∈ jsonValueStr v, 32 ≤ c.toNat := by
  intro c hc
  cases v with
  | none =>
    simp only [jsonValueStr, List.mem_cons, List.not_mem_nil, or_false] at hc
    rcases hc with rfl | rfl | rfl | rfl <;> decide
  | some s => exact jsonQuote_ge32 s c hc

theorem membersChars_ge32 (entries : List (String × Option String)) :
    ∀ c ∈ membersChars entries, 32 ≤ c.toNat := by
  induction entries with
  | nil => intro c hc; cases hc
  | cons kv rest ih =>
    intro c hc
    obtain ⟨k, v⟩ := kv
    match rest with
    | [] =>
      rcases List.mem_append.mp hc with hc | hc
      · exact jsonQuote_ge32 k c hc
      · rcases List.mem_cons.mp hc with rfl | hc
        · decide
        · rcases List.mem_cons.mp hc with rfl | hc
          · decide
          · exact jsonValueStr_ge32 v c hc
    | r2 :: rs =>
      rcases List.mem_append.mp hc with hc | hc
      · rcases List.mem_append.mp hc with hc | hc
        · exact jsonQuote_ge32 k c hc
        · rcases List.mem_cons.mp hc with rfl | hc
          · decide
          · rcases List.mem_cons.mp hc with rfl | hc
            · decide
            · exact jsonValueStr_ge32 v c hc
      · rcases List.mem_cons.mp hc with rfl | hc
        · decide
        · rcases List.mem_cons.mp hc with rfl | hc
          · decide
          · exact ih c hc

theorem dumpsFlat_no_illegal (entries : List (String × Option String)) :
    contains_illegal_chars (dumpsFlat entries) = false := by
  unfold contains_illegal_chars
  rw [List.any_eq_false]
  intro c hc
  have h32 : 32 ≤ c.toNat := by
    rcases List.mem_cons.mp hc with rfl | hc
    · decide
    · rcases List.mem_append.mp hc with hc | hc
      · exact membersChars_ge32 entries c hc
      · simp only [List.mem_singleton] at hc
        subst hc
        decide
  have hlt : decide (c.toNat < 32) = false := decide_eq_false (by omega)
  simp [hlt]

theorem check_params_decode_shape (v ts : String)
    (hvleg : contains_illegal_chars v = false)
    (htleg : contains_illegal_chars ts = false) :
    check_params ⟨[(kVerb, some v), (kResTok, some ts)], true⟩ [kResTok] [] = .ok () := by
  simp [check_params, checkNames, checkName, checkRequired, Params.hasName,
    Params.countName, Params.keys, Params.getItem, Params.get, hvleg, htleg,
    kVerb, kResTok]

/-- C3: decoding the string produced by encoding
(verb, metadataPrefix, offset, date, from, until, set) yields a token
whose fields equal the encoded fields, for any offset and any issue time
strictly later than the store's datestamp (the verb being a legal string
so the decode request validates, and the issue time a real calendar
time). -/
theorem c3_token_roundtrip (params : Params) (off : String) (time : PyDateTime)
    (store : Store) (lim : Nat) (del : String) (rt : PyDateTime)
    (v : String) (mp fv uv sv : Option String)
    (hv : params.getItem kVerb = some (some v))
    (hmp : params.getItem kMdPfx = some mp)
    (hvleg : contains_illegal_chars v = false)
    (htime : time.year ≤ 9999 ∧ 1 ≤ time.month ∧ time.month ≤ 12 ∧
      1 ≤ time.day ∧ time.day ≤ 31 ∧ time.hour ≤ 23 ∧ time.minute ≤ 59 ∧
      time.second ≤ 59)
    (hfrom : params.get kFrom = fv) (huntil : params.get kUntil = uv)
    (hset : params.get kSet = sv)
    (hfresh : store.datestamp = none ∨
      ∃ l, store.datestamp = some l ∧ PyDateTime.le time l = false) :
    ∃ ts, create_resumption_token params off time = some ts ∧
      get_resumption_token
        ⟨⟨[(kVerb, some v), (kResTok, some ts)], true⟩, lim, del, rt⟩ store
        = .ok (some [(kVerb, some v), (kMdPfx, mp), (kOffset, some off),
            (kDate, some (format_datestamp time)), (kFrom, fv), (kUntil, uv),
            (kSet, sv)]) := by
  obtain ⟨ht1, ht2, ht3, ht4, ht5, ht6, ht7, ht8⟩ := htime
  refine ⟨dumpsFlat [(kVerb, some v), (kMdPfx, mp), (kOffset, some off),
    (kDate, some (format_datestamp time)), (kFrom, fv), (kUntil, uv),
    (kSet, sv)], ?_, ?_⟩
  · unfold create_resumption_token
    rw [hv, hmp]
    dsimp only
    rw [hfrom, huntil, hset]
  · have hdate : check_resumption_token_date
        [(kVerb, some v), (kMdPfx, mp), (kOffset, some off),
         (kDate, some (format_datestamp time)), (kFrom, fv), (kUntil, uv),
         (kSet, sv)] store = .ok () := by
      unfold check_resumption_token_date
      rw [show dictGet [(kVerb, some v), (kMdPfx, mp), (kOffset, some off),
        (kDate, some (format_datestamp time)), (kFrom, fv), (kUntil, uv),
        (kSet, sv)] kDate = some (format_datestamp time) from rfl]
      dsimp only
      rw [parse_format_roundtrip time 0 0 0 ht1 ht2 ht3 ht4 ht5 ht6 ht7 ht8]
      dsimp only
      rcases hfresh with h | ⟨l, hl, hle⟩
      · rw [h]
      · rw [hl]
        dsimp only
        rw [hle]
        rfl
    unfold get_resumption_token
    rw [show (!(Params.mk [(kVerb, some v), (kResTok,
      some (dumpsFlat [(kVerb, some v), (kMdPfx, mp), (kOffset, some off),
        (kDate, some (format_datestamp time)), (kFrom, fv), (kUntil, uv),
        (kSet, sv)]))] true).hasName kResTok) = false from rfl]
    simp only [Bool.false_eq_true, if_false]
    rw [check_params_decode_shape v _ hvleg (dumpsFlat_no_illegal _)]
    dsimp only
    rw [show (Params.mk [(kVerb, some v), (kResTok,
      some (dumpsFlat [(kVerb, some v), (kMdPfx, mp), (kOffset, some off),
        (kDate, some (format_datestamp time)), (kFrom, fv), (kUntil, uv),
        (kSet, sv)]))] true).getItem kResTok
      = some (some (dumpsFlat [(kVerb, some v), (kMdPfx, mp),
        (kOffset, some off), (kDate, some (format_datestamp time)),
        (kFrom, fv), (kUntil, uv), (kSet, sv)])) from rfl]
    dsimp only
    rw [loadsFlat_dumpsFlat]
    rw [show toPyDict [(kVerb, some v), (kMdPfx, mp), (kOffset, some off),
      (kDate, some (format_datestamp time)), (kFrom, fv), (kUntil, uv),
      (kSet, sv)] = [(kVerb, some v), (kMdPfx, mp), (kOffset, some off),
      (kDate, some (format_datestamp time)), (kFrom, fv), (kUntil, uv),
      (kSet, sv)] from rfl]
    dsimp only
    rw [show (Params.mk [(kVerb, some v), (kResTok,
      some (dumpsFlat [(kVerb, some v), (kMdPfx, mp), (kOffset, some off),
        (kDate, some (format_datestamp time)), (kFrom, fv), (kUntil, uv),
        (kSet, sv)]))] true).getItem kVerb = some (some v) from rfl]
    dsimp only
    rw [if_neg (show ¬(dictGet [(kVerb, some v), (kMdPfx, mp),
      (kOffset, some off), (kDate, some (format_datestamp time)),
      (kFrom, fv), (kUntil, uv), (kSet, sv)] kVerb ≠ some v) from by
      rw [show dictGet [(kVerb, some v), (kMdPfx, mp), (kOffset, some off),
        (kDate, some (format_datestamp time)), (kFrom, fv), (kUntil, uv),
        (kSet, sv)] kVerb = some v from rfl]
      exact fun h => h rfl)]
    rw [hdate]

/-- Witness for C3 at a concrete parameter set, offset and time. -/
theorem c3_token_roundtrip_witness :
    ∃ ts, create_resumption_token
        ⟨[(kVerb, some ("ListRecords")), (kMdPfx, some ("oai_dc"))], true⟩
        ("r5") ⟨2014, 2, 4, 10, 54, 27⟩ = some ts ∧
      get_resumption_token
        ⟨⟨[(kVerb, some ("ListRecords")), (kResTok, some ts)], true⟩,
          2, "yes", ⟨2014, 2, 4, 10, 54, 28⟩⟩
        ⟨fun _ _ => false, [], fun _ => [], none⟩
      = .ok (some [(kVerb, some ("ListRecords")), (kMdPfx, some ("oai_dc")),
          (kOffset, some ("r5")),
          (kDate, some (format_datestamp ⟨2014, 2, 4, 10, 54, 27⟩)),
          (kFrom, none), (kUntil, none), (kSet, none)]) :=
  c3_token_roundtrip
    ⟨[(kVerb, some ("ListRecords")), (kMdPfx, some ("oai_dc"))], true⟩
    ("r5") ⟨2014, 2, 4, 10, 54, 27⟩ ⟨fun _ _ => false, [], fun _ => [], none⟩
    2 "yes" ⟨2014, 2, 4, 10, 54, 28⟩ ("ListRecords") (some ("oai_dc"))
    none none none rfl rfl (by decide) (by decide) rfl rfl rfl (Or.inl rfl)

/-- Counterexample to C2 as stated: replaying an expired resumption token
through ListIdentifiers surfaces ExpiredResumptionToken to the caller,
not InvalidResumptionToken (the decode happens before the handler's
remapping `try` block). -/
theorem c2_expired_token_counterexample :
    handle_list_items reqExpired storeExpired
      = .error (.oai .expiredResumptionToken)
    ∧ OaiError.expiredResumptionToken ≠ OaiError.invalidResumptionToken := by
  constructor
  · rfl
  · decide

/-- C2 (amended): a resumption token whose embedded date parses but is
less than or equal to the store's datestamp makes the date check and the
decode raise ExpiredResumptionToken, and replaying such a token through
ListIdentifiers surfaces ExpiredResumptionToken itself (the same
badResumptionToken code, but not remapped to InvalidResumptionToken). -/
theorem c2_expired_token_surfaces (req : Request) (store : Store)
    (ts : String) (tok : List (String × Option String)) (vv : Option String)
    (ds : String) (d : PyDateTime) (g : Granularity) (l : PyDateTime)
    (h0 : req.params.hasName kResTok = true)
    (h1 : check_params req.params [kResTok] [] = .ok ())
    (h2 : req.params.getItem kResTok = some (some ts))
    (h3 : loadsFlat ts = some tok)
    (h4 : req.params.getItem kVerb = some vv)
    (h5 : dictGet tok kVerb = vv)
    (h6 : dictGet tok kDate = some ds)
    (h7 : parse_date ds 0 0 0 = .ok (d, g))
    (h8 : store.datestamp = some l)
    (h9 : PyDateTime.le d l = true) :
    check_resumption_token_date tok store = .error .expiredResumptionToken
    ∧ get_resumption_token req store = .error (.oai .expiredResumptionToken)
    ∧ handle_list_items req store = .error (.oai .expiredResumptionToken) := by
  have hdate : check_resumption_token_date tok store
      = .error .expiredResumptionToken := by
    unfold check_resumption_token_date
    rw [h6]
    dsimp only
    rw [h7]
    dsimp only
    rw [h8]
    dsimp only
    rw [if_pos h9]
  have hdec : get_resumption_token req store
      = .error (.oai .expiredResumptionToken) := by
    unfold get_resumption_token
    rw [show (!req.params.hasName kResTok) = false from by rw [h0]; rfl]
    simp only [Bool.false_eq_true, if_false]
    rw [h1]
    dsimp only
    rw [h2]
    dsimp only
    rw [h3]
    dsimp only
    rw [h4]
    dsimp only
    rw [if_neg (show ¬(dictGet tok kVerb ≠ vv) from by
      rw [h5]; exact fun h => h rfl)]
    rw [hdate]
  refine ⟨hdate, hdec, ?_⟩
  unfold handle_list_items
  rw [hdec]

/-- Witness for C2 at the concrete expired-token request. -/
theorem c2_expired_token_surfaces_witness :
    handle_list_items reqExpired storeExpired
      = .error (.oai .expiredResumptionToken) :=
  (c2_expired_token_surfaces reqExpired storeExpired tsExpired
    [(kVerb, some ("ListIdentifiers")), (kDate, some ("2014-01-01"))]
    (some ("ListIdentifiers")) ("2014-01-01") ⟨2014, 1, 1, 0, 0, 0⟩ .day
    ⟨2014, 6, 1, 0, 0, 0⟩ rfl rfl rfl rfl rfl rfl rfl rfl rfl rfl).2.2

theorem check_params_ok_hasVerb (p : Params) (r a : List String)
    (h : check_params p r a = .ok ()) : p.hasName kVerb = true := by
  by_contra hc
  rw [Bool.not_eq_true] at hc
  unfold check_params at h
  rw [hc] at h
  rw [if_pos (by rfl)] at h
  exact Except.noConfusion h

theorem Params.getItem_of_hasName (p : Params) (n : String)
    (h : p.hasName n = true) : ∃ vv, p.getItem n = some vv := by
  unfold Params.hasName at h
  unfold Params.getItem
  rw [List.any_eq_true] at h
  obtain ⟨e, he, hpe⟩ := h
  have : (p.entries.find? (fun e => e.1 == n)).isSome := by
    rw [List.find?_isSome]
    exact ⟨e, he, hpe⟩
  obtain ⟨e2, he2⟩ := Option.isSome_iff_exists.mp this
  exact ⟨e2.2, by rw [he2]; rfl⟩

theorem check_date_shape (t : List (String × Option String)) (s : Store)
    (e : OaiError) (h : check_resumption_token_date t s = .error e) :
    e = .invalidResumptionToken ∨ e = .expiredResumptionToken := by
  unfold check_resumption_token_date at h
  split at h
  · exact Or.inl (by injection h with h1; exact h1.symm)
  · split at h
    · exact Or.inl (by injection h with h1; exact h1.symm)
    · split at h
      · exact Except.noConfusion h
      · split at h
        · exact Or.inr (by injection h with h1; exact h1.symm)
        · exact Except.noConfusion h

/-- C7 (amended): a ListSets request whose parameters are exactly the
verb plus a single well-formed resumptionToken always fails with
InvalidResumptionToken — whether the token is unparseable, carries the
wrong verb, has a bad date, is expired, or is perfectly valid. -/
theorem c7_list_sets_token_invalid (req : Request) (store : Store)
    (h0 : req.params.hasName kResTok = true)
    (h1 : check_params req.params [kResTok] [] = .ok ()) :
    handle_list_sets req store = .error (.oai .invalidResumptionToken) := by
  obtain ⟨vv2, h4⟩ := Params.getItem_of_hasName req.params kVerb
    (check_params_ok_hasVerb req.params [kResTok] [] h1)
  unfold handle_list_sets get_resumption_token
  rw [show (!req.params.hasName kResTok) = false from by rw [h0]; rfl]
  simp only [Bool.false_eq_true, if_false]
  rw [h1]
  dsimp only
  match h2 : req.params.getItem kResTok with
  | none => rfl
  | some none => rfl
  | some (some ts2) =>
    dsimp only
    match h3 : loadsFlat ts2 with
    | none => rfl
    | some parsed =>
      dsimp only
      rw [h4]
      dsimp only
      by_cases h5 : dictGet parsed kVerb ≠ vv2
      · rw [if_pos h5]
      · rw [if_neg h5]
        match h6 : check_resumption_token_date parsed store with
        | .ok () => rfl
        | .error e =>
          rcases check_date_shape parsed store e h6 with rfl | rfl
          · rfl
          · rfl

/-- Counterexample to C7 as stated: a ListSets request supplying a
resumptionToken together with another parameter fails with BadArgument,
not InvalidResumptionToken. -/
theorem c7_list_sets_counterexample :
    handle_list_sets reqSetsExtra storeOneSet
      = .error (.oai (.badArgument ("Illegal argument: \x22foo\x22")))
    ∧ OaiError.badArgument ("Illegal argument: \x22foo\x22")
        ≠ OaiError.invalidResumptionToken := by
  constructor
  · rfl
  · decide

/-- Witness for C7: a structurally valid but expired token is normalized
to InvalidResumptionToken. -/
theorem c7_list_sets_token_invalid_witness :
    handle_list_sets reqSetsExpired storeOneSet
      = .error (.oai .invalidResumptionToken) :=
  c7_list_sets_token_invalid reqSetsExpired storeOneSet rfl rfl

theorem get_records_staged (params : Params) (idel : Bool) (limit : Nat)
    (store : Store) (mp : Option String)
    (fu : Option PyDateTime × Option PyDateTime)
    (hmp : params.getItem kMdPfx = some mp)
    (hfmt : store.formatExists mp idel = true)
    (hfu : parse_from_and_until (params.get kFrom) (params.get kUntil) = .ok fu)
    (hset : ¬((params.get kSet).isSome ∧ store.setList.length = 0)) :
    get_records params idel limit store =
      match (store.recordList ⟨mp, fu.1, fu.2, params.get kSet, idel,
          params.get kOffset, limit + 1⟩).getLast? with
      | none => .error (.oai .noRecordsMatch)
      | some last =>
        if (store.recordList ⟨mp, fu.1, fu.2, params.get kSet, idel,
            params.get kOffset, limit + 1⟩).length = limit + 1 then
          .ok ((store.recordList ⟨mp, fu.1, fu.2, params.get kSet, idel,
            params.get kOffset, limit + 1⟩).dropLast, some last.identifier)
        else
          .ok (store.recordList ⟨mp, fu.1, fu.2, params.get kSet, idel,
            params.get kOffset, limit + 1⟩, none) := by
  unfold get_records get_metadata_pfx
  rw [hmp]
  dsimp only
  rw [if_pos hfmt]
  dsimp only
  rw [hfu]
  dsimp only
  rw [if_neg hset]

theorem decode_none_of_no_token (req : Request) (store : Store)
    (hno : req.params.hasName kResTok = false) :
    get_resumption_token req store = .ok none := by
  unfold get_resumption_token
  rw [hno]
  rfl

/-- C5 (amended): when the validated parameters match zero records, a
token-free ListIdentifiers/ListRecords request raises NoRecordsMatch,
while a request replaying a resumption token has the NoRecordsMatch
remapped to InvalidResumptionToken by the handler. -/
theorem c5_no_records_match (req : Request) (store : Store) :
    (∀ (mp : Option String) (fu : Option PyDateTime × Option PyDateTime),
      req.params.hasName kResTok = false →
      check_params req.params [kMdPfx] [kFrom, kUntil, kSet] = .ok () →
      req.params.getItem kMdPfx = some mp →
      store.formatExists mp (req.deletedRecords == "no") = true →
      parse_from_and_until (req.params.get kFrom) (req.params.get kUntil) = .ok fu →
      ¬((req.params.get kSet).isSome ∧ store.setList.length = 0) →
      store.recordList ⟨mp, fu.1, fu.2, req.params.get kSet,
        req.deletedRecords == "no", req.params.get kOffset, req.limit + 1⟩ = [] →
      handle_list_items req store = .error (.oai .noRecordsMatch))
    ∧ (∀ (tok : List (String × Option String)) (mp : Option String)
        (fu : Option PyDateTime × Option PyDateTime),
      get_resumption_token req store = .ok (some tok) →
      check_params ⟨tok, false⟩ [kMdPfx, kOffset, kDate, kFrom, kUntil, kSet] []
        = .ok () →
      Params.getItem ⟨tok, false⟩ kMdPfx = some mp →
      store.formatExists mp (req.deletedRecords == "no") = true →
      parse_from_and_until (Params.get ⟨tok, false⟩ kFrom)
        (Params.get ⟨tok, false⟩ kUntil) = .ok fu →
      ¬((Params.get ⟨tok, false⟩ kSet).isSome ∧ store.setList.length = 0) →
      store.recordList ⟨mp, fu.1, fu.2, Params.get ⟨tok, false⟩ kSet,
        req.deletedRecords == "no", Params.get ⟨tok, false⟩ kOffset,
        req.limit + 1⟩ = [] →
      handle_list_items req store = .error (.oai .invalidResumptionToken)) := by
  constructor
  · intro mp fu hno hchk hmp hfmt hfu hset hrec
    unfold handle_list_items
    rw [decode_none_of_no_token req store hno]
    dsimp only [effParams, Option.isSome]
    unfold listItemsInner
    rw [show listItemsRequired false = [kMdPfx] from rfl,
      show listItemsAllowed false = [kFrom, kUntil, kSet] from rfl]
    rw [hchk]
    dsimp only
    rw [get_records_staged req.params (req.deletedRecords == "no") req.limit
      store mp fu hmp hfmt hfu hset]
    rw [hrec]
    rfl
  · intro tok mp fu hdec hchk hmp hfmt hfu hset hrec
    unfold handle_list_items
    rw [hdec]
    dsimp only [effParams, Option.isSome]
    unfold listItemsInner
    rw [show listItemsRequired true = [kMdPfx, kOffset, kDate, kFrom, kUntil, kSet]
      from rfl, show listItemsAllowed true = [] from rfl]
    rw [hchk]
    dsimp only
    rw [get_records_staged ⟨tok, false⟩ (req.deletedRecords == "no") req.limit
      store mp fu hmp hfmt hfu hset]
    rw [hrec]
    rfl

set_option maxRecDepth 16384 in
/-- Counterexample to C5 as stated: with a resumption token supplied and
zero matching records, the handler raises InvalidResumptionToken, not
NoRecordsMatch. -/
theorem c5_no_records_counterexample :
    handle_list_items reqTokEmpty storeNoRecords
      = .error (.oai .invalidResumptionToken)
    ∧ OaiError.invalidResumptionToken ≠ OaiError.noRecordsMatch := by
  constructor
  · rfl
  · decide

set_option maxRecDepth 16384 in
/-- Witness for C5 at concrete requests over an empty record store. -/
theorem c5_no_records_match_witness :
    handle_list_items reqPlainList storeNoRecords
      = .error (.oai .noRecordsMatch)
    ∧ handle_list_items reqTokEmpty storeNoRecords
      = .error (.oai .invalidResumptionToken) := by
  constructor
  · exact (c5_no_records_match reqPlainList storeNoRecords).1
      (some ("oai_dc")) (none, none) rfl rfl rfl rfl rfl (by decide) rfl
  · exact (c5_no_records_match reqTokEmpty storeNoRecords).2
      [(kVerb, some ("ListRecords")), (kMdPfx, some ("oai_dc")),
       (kOffset, some ("x")), (kDate, some ("2014-01-01")),
       (kFrom, none), (kUntil, none), (kSet, none)]
      (some ("oai_dc")) (none, none) rfl rfl rfl rfl rfl (by decide) rfl

/-- C1 (amended): the handler fetches `limit + 1` records; when exactly
`limit + 1` come back it emits the first `limit` records plus a fresh
resumption token anchored at the identifier of the extra lookahead
record (the first record beyond the emitted page); otherwise it emits
all returned records and, if a token had been supplied, an empty
terminal token, else no token. -/
theorem c1_lookahead_pagination :
    (∀ (params : Params) (idel : Bool) (limit : Nat) (store : Store)
       (mp : Option String) (fu : Option PyDateTime × Option PyDateTime),
      params.getItem kMdPfx = some mp →
      store.formatExists mp idel = true →
      parse_from_and_until (params.get kFrom) (params.get kUntil) = .ok fu →
      ¬((params.get kSet).isSome ∧ store.setList.length = 0) →
      ((store.recordList ⟨mp, fu.1, fu.2, params.get kSet, idel,
          params.get kOffset, limit + 1⟩).length = limit + 1 →
        ∃ last, (store.recordList ⟨mp, fu.1, fu.2, params.get kSet, idel,
            params.get kOffset, limit + 1⟩).getLast? = some last ∧
          get_records params idel limit store
            = .ok ((store.recordList ⟨mp, fu.1, fu.2, params.get kSet, idel,
                params.get kOffset, limit + 1⟩).dropLast, some last.identifier))
      ∧ (store.recordList ⟨mp, fu.1, fu.2, params.get kSet, idel,
            params.get kOffset, limit + 1⟩ ≠ [] →
         (store.recordList ⟨mp, fu.1, fu.2, params.get kSet, idel,
            params.get kOffset, limit + 1⟩).length ≠ limit + 1 →
        get_records params idel limit store
          = .ok (store.recordList ⟨mp, fu.1, fu.2, params.get kSet, idel,
              params.get kOffset, limit + 1⟩, none)))
    ∧ (∀ (req : Request) (store : Store)
         (topt : Option (List (String × Option String)))
         (records : List OaiRecord) (noff : Option String),
      get_resumption_token req store = .ok topt →
      check_params (effParams req topt) (listItemsRequired topt.isSome)
        (listItemsAllowed topt.isSome) = .ok () →
      get_records (effParams req topt) (req.deletedRecords == "no") req.limit
        store = .ok (records, noff) →
      (∀ off t, noff = some off →
        create_resumption_token (effParams req topt) off req.time = some t →
        handle_list_items req store = .ok (records, some t))
      ∧ (noff = none → topt.isSome = true →
        handle_list_items req store = .ok (records, some ("")))
      ∧ (noff = none → topt.isSome = false →
        handle_list_items req store = .ok (records, none))) := by
  constructor
  · intro params idel limit store mp fu hmp hfmt hfu hset
    constructor
    · intro hlen
      have hne : store.recordList ⟨mp, fu.1, fu.2, params.get kSet, idel,
          params.get kOffset, limit + 1⟩ ≠ [] := by
        intro hcon
        rw [hcon] at hlen
        simp at hlen
      obtain ⟨last, hlast⟩ := Option.isSome_iff_exists.mp
        (List.getLast?_isSome.mpr hne)
      refine ⟨last, hlast, ?_⟩
      rw [get_records_staged params idel limit store mp fu hmp hfmt hfu hset]
      rw [hlast]
      dsimp only
      rw [if_pos hlen]
    · intro hne hlen
      obtain ⟨last, hlast⟩ := Option.isSome_iff_exists.mp
        (List.getLast?_isSome.mpr hne)
      rw [get_records_staged params idel limit store mp fu hmp hfmt hfu hset]
      rw [hlast]
      dsimp only
      rw [if_neg hlen]
  · intro req store topt records noff hdec hchk hrec
    match topt with
    | none =>
      refine ⟨?_, ?_, ?_⟩
      · intro off t hoff hcre
        subst hoff
        unfold handle_list_items
        rw [hdec]
        dsimp only
        unfold listItemsInner
        rw [hchk]
        dsimp only
        rw [hrec]
        dsimp only
        rw [hcre]
      · intro _ hcon
        exact absurd hcon (by decide)
      · intro hoff _
        subst hoff
        unfold handle_list_items
        rw [hdec]
        dsimp only
        unfold listItemsInner
        rw [hchk]
        dsimp only
        rw [hrec]
        rfl
    | some tp =>
      refine ⟨?_, ?_, ?_⟩
      · intro off t hoff hcre
        subst hoff
        unfold handle_list_items
        rw [hdec]
        dsimp only
        unfold listItemsInner
        rw [hchk]
        dsimp only
        rw [hrec]
        dsimp only
        rw [hcre]
      · intro hoff _
        subst hoff
        unfold handle_list_items
        rw [hdec]
        dsimp only
        unfold listItemsInner
        rw [hchk]
        dsimp only
        rw [hrec]
        rfl
      · intro _ hcon
        simp at hcon

set_option maxRecDepth 16384 in
/-- Counterexample to C1 as stated: with `limit = 1` and records r1, r2,
the emitted page is [r1] but the fresh token's offset field is "r2" —
the lookahead record's identifier, not the last emitted identifier. -/
theorem c1_anchor_counterexample :
    handle_list_items reqPlainList storeTwoRecords
      = .ok ([⟨"r1"⟩], some (dumpsFlat [(kVerb, some ("ListRecords")),
          (kMdPfx, some ("oai_dc")), (kOffset, some ("r2")),
          (kDate, some ("2014-02-04T10:54:27Z")), (kFrom, none),
          (kUntil, none), (kSet, none)]))
    ∧ (loadsFlat (dumpsFlat [(kVerb, some ("ListRecords")),
          (kMdPfx, some ("oai_dc")), (kOffset, some ("r2")),
          (kDate, some ("2014-02-04T10:54:27Z")), (kFrom, none),
          (kUntil, none), (kSet, none)])).map (fun t => dictGet t kOffset)
        = some (some ("r2"))
    ∧ OaiRecord.identifier ⟨"r1"⟩ = "r1"
    ∧ ("r2" : String) ≠ ("r1" : String) := by
  refine ⟨rfl, rfl, rfl, ?_⟩
  decide

set_option maxRecDepth 16384 in
/-- Witness for C1 at the two-record store with limit 1. -/
theorem c1_lookahead_pagination_witness :
    (∃ last, (storeTwoRecords.recordList ⟨some ("oai_dc"), none, none, none,
        false, none, 2⟩).getLast? = some last ∧
      get_records reqPlainList.params false 1 storeTwoRecords
        = .ok ([⟨"r1"⟩], some last.identifier))
    ∧ handle_list_items reqPlainList storeTwoRecords
      = .ok ([⟨"r1"⟩], some (dumpsFlat [(kVerb, some ("ListRecords")),
          (kMdPfx, some ("oai_dc")), (kOffset, some ("r2")),
          (kDate, some ("2014-02-04T10:54:27Z")), (kFrom, none),
          (kUntil, none), (kSet, none)])) := by
  constructor
  · exact ((c1_lookahead_pagination.1 reqPlainList.params false 1
      storeTwoRecords (some ("oai_dc")) (none, none) rfl rfl rfl
      (by decide)).1 rfl)
  · exact ((c1_lookahead_pagination.2 reqPlainList storeTwoRecords none
      [⟨"r1"⟩] (some ("r2")) rfl rfl rfl).1 ("r2")
      (dumpsFlat [(kVerb, some ("ListRecords")), (kMdPfx, some ("oai_dc")),
        (kOffset, some ("r2")), (kDate, some ("2014-02-04T10:54:27Z")),
        (kFrom, none), (kUntil, none), (kSet, none)]) rfl rfl)
